import Mathlib

/-!
Verification of the Yappi mission-script compiler against its specification.

The Python source is shallowly embedded in Lean:
* Python floats are modelled by exact rationals (ℚ); `round(x, 6)` is modelled
  by `round6`.
* the transcendental functions of the `math` module (`math.pi`, `math.cos`,
  `math.sin`) are abstracted into a `MathCtx` record of rational-valued
  functions, since the claims under verification never depend on their
  analytic values; theorems quantify over all such contexts, and concrete
  witnesses instantiate them with arbitrary computable functions.
* Python exceptions are modelled with `Option`/`Except` (`none` / `.error`
  meaning the corresponding call raises).
-/

/-- A waypoint: (longitude, latitude) pair in decimal degrees. -/
abbrev Pt := ℚ × ℚ

/-- Abstraction of the `math` module constants/functions used by
`modules/trajectories.py`: `math.pi`, `math.cos`, `math.sin`, modelled as
arbitrary rational-valued functions. -/
structure MathCtx where
  pi : ℚ
  cos : ℚ → ℚ
  sin : ℚ → ℚ

/-- A concrete context used to evaluate the embedding on explicit inputs
(the counting and control-flow facts proved below hold for every context). -/
def ctx0 : MathCtx := { pi := 3, cos := fun _ => 1, sin := fun _ => 0 }

/-- Model of Python `round(x, 6)`: round to 6 decimal places. -/
def round6 (q : ℚ) : ℚ := ((round (q * 1000000) : ℤ) : ℚ) / 1000000

/-- Model of Python `int(x)` on a float: truncation toward zero. -/
def pytrunc (q : ℚ) : ℤ := if 0 ≤ q then ⌊q⌋ else ⌈q⌉

namespace TrajectoryGenerator

/-- `TrajectoryGenerator.add_meters_to_coordinates` from
`modules/trajectories.py` (lines 64-84): planar offset of a coordinate by a
metric displacement, with pole guard and rounding to 6 decimals.
`EARTH_RADIUS = 6_371_000`, `DEG_TO_RAD = pi/180`, `RAD_TO_DEG = 180/pi`,
`COS_LAT_THRESHOLD = 1e-12`. -/
def addMetersToCoordinates (ctx : MathCtx) (lat lon mN mE : ℚ) : Pt :=
  if 90 ≤ |lat| then
    let deltaLat := mN / 6371000 * (180 / ctx.pi)
    (round6 lon, round6 (lat + deltaLat))
  else
    let latRad := lat * (ctx.pi / 180)
    let deltaLat := mN / 6371000 * (180 / ctx.pi)
    let cosLat := ctx.cos latRad
    let deltaLon :=
      if (1 / 1000000000000 : ℚ) < |cosLat| then
        mE / (6371000 * cosLat) * (180 / ctx.pi)
      else 0
    (round6 (lon + deltaLon), round6 (lat + deltaLat))

/-- `TrajectoryGenerator.rotate_point` (lines 86-104): 2D rotation of `point`
about `origin` by `angle_deg`, coordinates rounded to 6 decimals. -/
def rotatePoint (ctx : MathCtx) (origin point : Pt) (angleDeg : ℚ) : Pt :=
  let angleRad := angleDeg * (ctx.pi / 180)
  let cosA := ctx.cos angleRad
  let sinA := ctx.sin angleRad
  let dx := point.1 - origin.1
  let dy := point.2 - origin.2
  (round6 (origin.1 + cosA * dx - sinA * dy),
   round6 (origin.2 + sinA * dx + cosA * dy))

end TrajectoryGenerator

namespace BaseMeanderGenerator

open TrajectoryGenerator

/-- `BaseMeanderGenerator._generate_meander_segment` (lines 109-144):
boustrophedon sweep.  `num_passes = max(1, int(steps / spacing_m))`; the loop
`for i in range(num_passes + 1)` appends two endpoint waypoints per pass. -/
def generateMeanderSegment (ctx : MathCtx)
    (startLon startLat widthM lengthM spacingM : ℚ) (direction : String) :
    List Pt :=
  let isVertical := direction = "вертикально"
  let size := if isVertical then lengthM else widthM
  let steps := if isVertical then widthM else lengthM
  let numPasses : ℤ := max 1 (pytrunc (steps / spacingM))
  (List.range (numPasses.toNat + 1)).flatMap (fun i =>
    let offset := (i : ℚ) * spacingM
    if isVertical then
      let current := addMetersToCoordinates ctx startLat startLon 0 offset
      if i % 2 = 0 then
        let e := addMetersToCoordinates ctx current.2 current.1 size 0
        [current, e]
      else
        let top := addMetersToCoordinates ctx startLat startLon size offset
        [top, current]
    else
      let current := addMetersToCoordinates ctx startLat startLon offset 0
      if i % 2 = 0 then
        let e := addMetersToCoordinates ctx current.2 current.1 0 size
        [current, e]
      else
        let r := addMetersToCoordinates ctx startLat startLon offset size
        [r, current])

end BaseMeanderGenerator

namespace MeanderGenerator

open TrajectoryGenerator BaseMeanderGenerator

/-- `MeanderGenerator.generate_meander` (lines 149-162): the meander segment,
optionally rotated about the start point when `angle_deg` is truthy. -/
def generateMeander (ctx : MathCtx)
    (startLon startLat widthM lengthM spacingM : ℚ)
    (direction : String) (angleDeg : ℚ) : List Pt :=
  let points := generateMeanderSegment ctx startLon startLat widthM lengthM
    spacingM direction
  if angleDeg ≠ 0 then
    points.map (fun p => rotatePoint ctx (startLon, startLat) p angleDeg)
  else points

end MeanderGenerator

namespace CenteredMeanderGenerator

open TrajectoryGenerator BaseMeanderGenerator

/-- `CenteredMeanderGenerator.generate_centered_meander` (lines 167-215):
sweep start corner is the center offset by (-length/2, -width/2); the
segment's first point is discarded; optional rotation about the center. -/
def generateCenteredMeander (ctx : MathCtx)
    (centerLon centerLat widthM lengthM spacingM : ℚ)
    (direction : String) (angleDeg : ℚ) : List Pt :=
  let halfWidth := widthM / 2
  let halfLength := lengthM / 2
  let start := addMetersToCoordinates ctx centerLat centerLon
    (-halfLength) (-halfWidth)
  let points := generateMeanderSegment ctx start.1 start.2 widthM lengthM
    spacingM direction
  let points := points.drop 1
  if angleDeg ≠ 0 then
    points.map (fun p => rotatePoint ctx (centerLon, centerLat) p angleDeg)
  else points

end CenteredMeanderGenerator

namespace SpiralGenerator

open TrajectoryGenerator

/-- The body of the `while radius <= max_radius` loop of
`SpiralGenerator.generate_spiral` (lines 232-242), with an explicit fuel
bound on the number of iterations (the source loop has none; sufficient fuel
is shown to exist below).  `ANGLE_STEP = math.pi / 8`; each iteration first
increments the radius, then appends a point only when
`len(points) % point_freq == 0`. -/
def spiralLoop (ctx : MathCtx) (centerLon centerLat maxRadiusM spacingM : ℚ)
    (direction : ℚ) (pointFreq : ℕ) :
    ℕ → ℚ → List Pt → List Pt
  | 0, _, points => points
  | fuel + 1, radius, points =>
    if radius ≤ maxRadiusM then
      let radius2 := radius + spacingM * (ctx.pi / 8) / (2 * ctx.pi)
      let angle := direction * 2 * ctx.pi * radius2 / spacingM
      let dx := radius2 * ctx.cos angle
      let dy := radius2 * ctx.sin angle
      let points2 :=
        if points.length % pointFreq = 0 then
          points ++ [addMetersToCoordinates ctx centerLat centerLon dy dx]
        else points
      spiralLoop ctx centerLon centerLat maxRadiusM spacingM direction
        pointFreq fuel radius2 points2
    else points

/-- `SpiralGenerator.generate_spiral` (lines 222-243): Archimedean spiral,
starting from the center point with `radius = 0`. -/
def generateSpiral (ctx : MathCtx) (fuel : ℕ)
    (centerLon centerLat maxRadiusM spacingM : ℚ)
    (clockwise : Bool) (pointFreq : ℕ) : List Pt :=
  let direction : ℚ := if clockwise then 1 else -1
  spiralLoop ctx centerLon centerLat maxRadiusM spacingM direction pointFreq
    fuel 0 [(centerLon, centerLat)]

end SpiralGenerator

namespace StarGenerator

/-- `StarGenerator.generate_star` (lines 248-283): `num_lines < 2` raises
`ValueError` (modelled as `none`); rays from center with the fixed
111,320 m/degree constant, each returning to center, all coordinates rounded
to 6 decimals. -/
def generateStar (ctx : MathCtx) (centerLon centerLat radiusM : ℚ)
    (numLines : ℤ) (angleOffset lineLength : ℚ) : Option (List Pt) :=
  if numLines < 2 then none
  else
    let angleStep := 2 * ctx.pi / (numLines : ℚ)
    let cosLat := ctx.cos (centerLat * ctx.pi / 180)
    some (((List.range numLines.toNat).flatMap (fun i =>
      let angle := angleOffset * ctx.pi / 180 + (i : ℚ) * angleStep
      let outer : Pt :=
        (centerLon + lineLength * ctx.cos angle / (111320 * cosLat),
         centerLat + lineLength * ctx.sin angle / 111320)
      (if 0 < radiusM then
        let innerAngle := angle + angleStep / 2
        let inner : Pt :=
          (centerLon + radiusM * ctx.cos innerAngle / (111320 * cosLat),
           centerLat + radiusM * ctx.sin innerAngle / 111320)
        [outer, inner]
      else [outer]) ++ [(centerLon, centerLat)]))
      |>.map (fun p => (round6 p.1, round6 p.2)))

end StarGenerator

namespace RosetteGenerator

/-- `RosetteGenerator.generate_rosette` (lines 288-308): `num_passes` rays
spaced `math.pi / num_passes` apart, each returning to center, all coordinates
rounded to 6 decimals.  `num_passes = 0` raises `ZeroDivisionError` at
`angle_step = math.pi / num_passes` (modelled as `none`). -/
def generateRosette (ctx : MathCtx) (centerLon centerLat radiusM : ℚ)
    (numPasses : ℤ) (angleOffset : ℚ) : Option (List Pt) :=
  if numPasses = 0 then none
  else
    let angleStep := ctx.pi / (numPasses : ℚ)
    let cosLat := ctx.cos (centerLat * ctx.pi / 180)
    some (((List.range numPasses.toNat).flatMap (fun i =>
      let angle := angleOffset * ctx.pi / 180 + (i : ℚ) * angleStep
      let e : Pt :=
        (centerLon + radiusM * ctx.cos angle / (111320 * cosLat),
         centerLat + radiusM * ctx.sin angle / 111320)
      [e, (centerLon, centerLat)]))
      |>.map (fun p => (round6 p.1, round6 p.2)))

end RosetteGenerator

/-- Length of a `flatMap` whose body always produces two elements. -/
theorem length_flatMap_two {α β : Type} (l : List α) (F : α → List β)
    (hF : ∀ a, (F a).length = 2) : (l.flatMap F).length = 2 * l.length := by
  induction l with
  | nil => simp
  | cons a t ih => simp [List.flatMap_cons, hF a, ih, Nat.mul_succ]; omega

/-- Indexing into a `flatMap` of two-element blocks. -/
theorem get_flatMap_pair {α β : Type} (f g : α → β) :
    ∀ (l : List α) (j : ℕ) (a : α), l.get? j = some a →
      ((l.flatMap fun k => [f k, g k]).get? (2 * j) = some (f a) ∧
       (l.flatMap fun k => [f k, g k]).get? (2 * j + 1) = some (g a))
  | [], j, a => by simp
  | b :: t, 0, a => by
    intro h
    simp at h
    subst h
    simp [List.flatMap_cons]
  | b :: t, j + 1, a => by
    intro h
    simp only [List.get?_cons_succ] at h
    have ih := get_flatMap_pair f g t j a h
    have h2 : 2 * (j + 1) = (2 * j + 1) + 1 := by omega
    simp only [List.flatMap_cons, h2, List.cons_append, List.get?_cons_succ]
    simpa using ih

/-- Unconditional waypoint count of the meander segment:
two points per loop iteration, `max(1, int(steps/spacing)) + 1` iterations. -/
theorem meanderSegment_length (ctx : MathCtx)
    (startLon startLat widthM lengthM spacingM : ℚ) (direction : String) :
    (BaseMeanderGenerator.generateMeanderSegment ctx startLon startLat
      widthM lengthM spacingM direction).length =
    2 * ((max 1 (pytrunc
      ((if direction = "вертикально" then widthM else lengthM) / spacingM))
      ).toNat + 1) := by
  unfold BaseMeanderGenerator.generateMeanderSegment
  rw [length_flatMap_two]
  · rw [List.length_range]
  · intro i
    dsimp only
    split <;> split <;> simp

/-- C1.  The claim states the waypoint count is `2 * (floor(C/S) + 1)`;
the source computes `num_passes = max(1, int(steps / spacing_m))`, so for
cross-extent `C` smaller than spacing `S` (where `floor(C/S) = 0`) the pass
count is clamped to 1 and four waypoints are produced rather than two.
Counterexample: extent 20, cross-extent 1, spacing 2, vertical sweep. -/
theorem c1_meander_count_counterexample :
    (BaseMeanderGenerator.generateMeanderSegment ctx0 0 0 1 20 2
      "вертикально").length = 4 ∧
    (BaseMeanderGenerator.generateMeanderSegment ctx0 0 0 1 20 2
      "вертикально").length ≠ 2 * ((⌊(1 : ℚ) / 2⌋).toNat + 1) := by
  have hfl : ⌊(1 : ℚ) / 2⌋ = 0 := by
    rw [Int.floor_eq_zero_iff]
    constructor <;> norm_num
  have h4 : (BaseMeanderGenerator.generateMeanderSegment ctx0 0 0 1 20 2
      "вертикально").length = 4 := by
    rw [meanderSegment_length]
    norm_num [pytrunc, hfl]
  refine ⟨h4, ?_⟩
  rw [h4, hfl]
  norm_num

/-- C1 (amended).  For every extent, cross-extent `C > 0` and spacing
`S > 0`, the meander generator produces exactly
`2 * (max 1 (floor(C/S)) + 1)` waypoints: the pass count equals
`max(1, floor(C/S))` and each of the `pass count + 1` passes contributes
exactly two endpoint waypoints.  (The cross-extent is the width for a
vertical sweep and the length for a horizontal one.) -/
theorem c1_meander_count (ctx : MathCtx)
    (startLon startLat widthM lengthM spacingM : ℚ) (direction : String)
    (hs : 0 < spacingM)
    (hc : 0 < (if direction = "вертикально" then widthM else lengthM)) :
    (BaseMeanderGenerator.generateMeanderSegment ctx startLon startLat
      widthM lengthM spacingM direction).length =
    2 * ((max 1
      ⌊(if direction = "вертикально" then widthM else lengthM) / spacingM⌋
      ).toNat + 1) := by
  rw [meanderSegment_length]
  have hq : (0 : ℚ) ≤
      (if direction = "вертикально" then widthM else lengthM) / spacingM :=
    div_nonneg hc.le hs.le
  rw [show pytrunc
      ((if direction = "вертикально" then widthM else lengthM) / spacingM) =
      ⌊(if direction = "вертикально" then widthM else lengthM) / spacingM⌋
    from by simp [pytrunc, hq]]

/-- C1 witness: extent 20, cross-extent 10, spacing 5, vertical sweep gives
`2 * (floor(10/5) + 1) = 6` waypoints. -/
theorem c1_meander_count_witness :
    (BaseMeanderGenerator.generateMeanderSegment ctx0 0 0 10 20 5
      "вертикально").length =
    2 * ((max 1
      ⌊(if ("вертикально" : String) = "вертикально" then (10 : ℚ) else 20) / 5⌋
      ).toNat + 1) :=
  c1_meander_count ctx0 0 0 10 20 5 "вертикально" (by norm_num) (by norm_num)

/-- C9.  For every latitude with `|lat| < 90` and every longitude, the planar
offset with zero metric displacement is the identity up to rounding:
`add_meters_to_coordinates(lat, lon, 0, 0)` returns the input coordinates
rounded to 6 decimal places.  (Holds for every model of `math.cos` and
`math.pi`.) -/
theorem c9_offset_zero_identity (ctx : MathCtx) (lat lon : ℚ)
    (h : |lat| < 90) :
    TrajectoryGenerator.addMetersToCoordinates ctx lat lon 0 0 =
      (round6 lon, round6 lat) := by
  have hb : ¬ (90 ≤ |lat|) := not_le.mpr h
  simp only [TrajectoryGenerator.addMetersToCoordinates, hb, if_false,
    zero_div, zero_mul, add_zero, ite_self]

/-- C9 witness: at (lat, lon) = (10, 20). -/
theorem c9_offset_zero_identity_witness :
    TrajectoryGenerator.addMetersToCoordinates ctx0 10 20 0 0 =
      (round6 20, round6 10) :=
  c9_offset_zero_identity ctx0 10 20 (by norm_num)

/-- The ray endpoint of the rosette pattern before rounding
(`end` in `RosetteGenerator.generate_rosette`). -/
def rosetteRay (ctx : MathCtx) (centerLon centerLat radiusM : ℚ)
    (numPasses : ℤ) (angleOffset : ℚ) (i : ℕ) : Pt :=
  let angle := angleOffset * ctx.pi / 180 + (i : ℚ) * (ctx.pi / (numPasses : ℚ))
  (centerLon + radiusM * ctx.cos angle /
      (111320 * ctx.cos (centerLat * ctx.pi / 180)),
   centerLat + radiusM * ctx.sin angle / 111320)

/-- C10.  The rosette generator is undefined (raises `ZeroDivisionError`,
modelled by `none`) for `num_passes = 0`, and for every `num_passes ≥ 1` it
returns exactly `2 * num_passes` waypoints, alternating a ray endpoint with
the center point, each coordinate rounded to 6 decimal places. -/
theorem c10_rosette (ctx : MathCtx) (centerLon centerLat radiusM aOff : ℚ)
    (n : ℤ) (hn : 1 ≤ n) :
    RosetteGenerator.generateRosette ctx centerLon centerLat radiusM 0 aOff
      = none ∧
    ∃ l, RosetteGenerator.generateRosette ctx centerLon centerLat radiusM n
        aOff = some l ∧
      l.length = 2 * n.toNat ∧
      ∀ j, j < n.toNat →
        l.get? (2 * j) = some
          ((round6 (rosetteRay ctx centerLon centerLat radiusM n aOff j).1),
           (round6 (rosetteRay ctx centerLon centerLat radiusM n aOff j).2)) ∧
        l.get? (2 * j + 1) = some (round6 centerLon, round6 centerLat) := by
  have hne : n ≠ 0 := by omega
  constructor
  · simp [RosetteGenerator.generateRosette]
  · refine ⟨((List.range n.toNat).flatMap (fun i =>
      [rosetteRay ctx centerLon centerLat radiusM n aOff i,
       (centerLon, centerLat)])).map (fun p => (round6 p.1, round6 p.2)),
      ?_, ?_, ?_⟩
    · simp only [RosetteGenerator.generateRosette, hne, if_false]
      rfl
    · rw [List.length_map, length_flatMap_two]
      · simp
      · intro a; simp
    · intro j hj
      rw [List.map_flatMap]
      have hr : (List.range n.toNat).get? j = some j := List.get?_range hj
      have := get_flatMap_pair
        (f := fun i => ((round6 (rosetteRay ctx centerLon centerLat radiusM
            n aOff i).1),
          (round6 (rosetteRay ctx centerLon centerLat radiusM n aOff i).2)))
        (g := fun _ => ((round6 centerLon), (round6 centerLat)))
        (List.range n.toNat) j j hr
      simpa using this

/-- A Python value as it flows through the pipeline: `None`, an `int`, a
`float` (modelled by ℚ), a `str`, or the waypoint dictionary that `main.py`
stores under the key `координаты` after trajectory generation. -/
inductive Value where
  | null
  | int (n : ℤ)
  | num (q : ℚ)
  | str (s : String)
  | coords (m : List (String × List Pt))
  deriving DecidableEq

/-- A Python `dict[str, Value]` with insertion order, modelled as an
association list with unique keys (all operations below preserve
uniqueness, mirroring dict semantics). -/
abbrev Params := List (String × Value)

/-- Membership test `k in params`. -/
def hasKey (ps : Params) (k : String) : Bool := (List.lookup k ps).isSome

/-- Dict assignment `params[k] = v`: update in place, else append. -/
def setKey (ps : Params) (k : String) (v : Value) : Params :=
  if hasKey ps k then ps.map (fun kv => if kv.1 = k then (k, v) else kv)
  else ps ++ [(k, v)]

/-- Dict deletion `params.pop(k)` (key removal only). -/
def delKey (ps : Params) (k : String) : Params :=
  ps.filter (fun kv => !(kv.1 == k))

/-- One firmware-level device action of `modules/translators.py`.  The
constant-field instrument records of `Translator.action` are modelled by
nullary constructors; `Translator.movement` keeps its variable fields. -/
inductive ActionRec where
  | sidesonarOn
  | sidesonarPause
  | sidesonarResume
  | sidesonarOff
  | mbeOnHf
  | mbePause
  | mbeOff
  | photoOn
  | tackPoint (up speed : Value) (lon lat : ℚ)
  deriving DecidableEq

namespace Translator

/-- `Translator.movement` (lines 40-49): one TackPoint movement action. -/
def movement (depth speed : Value) (lon lat : ℚ) : ActionRec :=
  .tackPoint depth speed lon lat

/-- `Translator.action` (lines 51-96): fixed lookup by (device, status).
A pair with no defined action falls off the end of the `if` chain and the
Python function returns `None`, modelled by `none`. -/
def action (device : Value) (status : String) : Option ActionRec :=
  if device = .str "гбо" then
    if status = "вкл" then some .sidesonarOn
    else if status = "пауза" then some .sidesonarPause
    else if status = "продолжить" then some .sidesonarResume
    else if status = "выкл" then some .sidesonarOff
    else none
  else if device = .str "млэ" then
    if status = "вкл" then some .mbeOnHf
    else if status = "пауза" then some .mbePause
    else if status = "выкл" then some .mbeOff
    else none
  else if device = .str "фотокамера" then some .photoOn
  else none

/-- The per-waypoint loop of the toggling branch of `Translator.__init__`
(lines 14-23): one movement action, then a pause/resume instrument action
chosen by the `device` flag, which flips after every waypoint.  Note that
`tasks.append(self.action(...))` appends the result even when it is `None`,
so the emitted list holds `Option ActionRec` entries. -/
def toggleRun (device h s : Value) : Bool → List Pt → List (Option ActionRec)
  | _, [] => []
  | dev, p :: ps =>
    some (movement h s p.1 p.2) ::
      (if dev then action device "продолжить" else action device "пауза") ::
      toggleRun device h s (!dev) ps

/-- The waypoints of the command, in iteration order of
`command[key]["координаты"].items()`. -/
def coordPoints (m : List (String × List Pt)) : List Pt := m.flatMap Prod.snd

/-- The toggling branch of `Translator.__init__` (lines 10-24): instrument
on, movement/toggle pairs, instrument off.  (The source reads `высота` and
`скорость` inside the waypoint loop; the lookups are hoisted here, which
only differs when a key is missing and the waypoint list is empty.) -/
def branchToggled (value : Params) : Option (List (Option ActionRec)) := do
  let dev ← List.lookup "прибор" value
  let h ← List.lookup "высота" value
  let s ← List.lookup "скорость" value
  let m ← (match List.lookup "координаты" value with
    | some (.coords m) => some m
    | _ => none)
  some (action dev "вкл" ::
    toggleRun dev h s false (coordPoints m) ++ [action dev "выкл"])

/-- The plain branch of `Translator.__init__` (lines 26-32): instrument on,
one movement per waypoint, instrument off. -/
def branchPlain (value : Params) : Option (List (Option ActionRec)) := do
  let dev ← List.lookup "прибор" value
  let h ← List.lookup "высота" value
  let s ← List.lookup "скорость" value
  let m ← (match List.lookup "координаты" value with
    | some (.coords m) => some m
    | _ => none)
  some (action dev "вкл" ::
    (coordPoints m).map (fun p => some (movement h s p.1 p.2)) ++
      [action dev "выкл"])

/-- Branch selection of `Translator.__init__` (line 10 and line 26):
figure surveys always toggle; point surveys toggle only when `траектория`
is exactly the string `меандр` (Python `==`, not substring); a missing
`траектория` on a point survey raises `KeyError` (`none`); any other
command contributes nothing. -/
def translateCommand (key : String) (value : Params) :
    Option (List (Option ActionRec)) :=
  if key = "обследование_фигуры" then branchToggled value
  else if key = "обследование_точки" then
    match List.lookup "траектория" value with
    | none => none
    | some t =>
      if t = .str "меандр" then branchToggled value
      else branchPlain value
  else some []

/-- `Translator.__init__` over the whole command list: tasks accumulate in
command order. -/
def translate (commands : List (String × Params)) :
    Option (List (Option ActionRec)) :=
  match commands with
  | [] => some []
  | (k, v) :: rest => do
    let t1 ← translateCommand k v
    let t2 ← translate rest
    some (t1 ++ t2)

end Translator

/-- The parameter map of a validated survey command as `Translator`
consumes it (waypoints already substituted by `main.py`). -/
def mkSurveyParams (dev : String) (h s : Value) (ws : List Pt) : Params :=
  [("прибор", .str dev), ("высота", h), ("скорость", s),
   ("траектория", .str "меандр"),
   ("координаты", .coords [("координаты", ws)])]

/-- Once the radius exceeds the maximum, the spiral loop stops at once. -/
theorem spiralLoop_gt (ctx : MathCtx) (clon clat maxr spacing dir : ℚ)
    (freq : ℕ) (r : ℚ) (hr : ¬ r ≤ maxr) :
    ∀ (fuel : ℕ) (pts : List Pt),
      SpiralGenerator.spiralLoop ctx clon clat maxr spacing dir freq fuel r
        pts = pts
  | 0, _ => rfl
  | fuel + 1, pts => by
    simp [SpiralGenerator.spiralLoop, hr]

/-- If `n` radius increments starting from `r` overshoot the maximum, the
spiral loop's result is the same for every fuel of at least `n`: the loop
genuinely stops. -/
theorem spiralLoop_fuel_ext (ctx : MathCtx) (clon clat maxr spacing dir : ℚ)
    (freq : ℕ) :
    ∀ (n : ℕ) (r : ℚ) (pts : List Pt) (f₁ f₂ : ℕ),
      maxr < r + (n : ℚ) * (spacing * (ctx.pi / 8) / (2 * ctx.pi)) →
      n ≤ f₁ → n ≤ f₂ →
      SpiralGenerator.spiralLoop ctx clon clat maxr spacing dir freq f₁ r
        pts =
      SpiralGenerator.spiralLoop ctx clon clat maxr spacing dir freq f₂ r
        pts := by
  intro n
  induction n with
  | zero =>
    intro r pts f₁ f₂ h _ _
    have hr : ¬ r ≤ maxr := not_le.mpr (by simpa using h)
    rw [spiralLoop_gt ctx clon clat maxr spacing dir freq r hr,
      spiralLoop_gt ctx clon clat maxr spacing dir freq r hr]
  | succ n ih =>
    intro r pts f₁ f₂ h h₁ h₂
    by_cases hr : r ≤ maxr
    · obtain ⟨m₁, rfl⟩ : ∃ m, f₁ = m + 1 := ⟨f₁ - 1, by omega⟩
      obtain ⟨m₂, rfl⟩ : ∃ m, f₂ = m + 1 := ⟨f₂ - 1, by omega⟩
      simp only [SpiralGenerator.spiralLoop, hr, if_true]
      apply ih
      · push_cast at h
        linarith
      · omega
      · omega
    · rw [spiralLoop_gt ctx clon clat maxr spacing dir freq r hr,
        spiralLoop_gt ctx clon clat maxr spacing dir freq r hr]

/-- C7.  For every spacing `> 0` and every maximum radius, spiral generation
terminates: with `π ≠ 0` the radius strictly increases by
`spacing · (π/8) / (2π) = spacing/16` on each step, so there is a number of
steps `N` past which the loop's result no longer changes (the `while` loop
exits). -/
theorem c7_spiral_terminates (ctx : MathCtx)
    (centerLon centerLat maxRadiusM spacingM : ℚ) (clockwise : Bool)
    (pointFreq : ℕ) (hpi : ctx.pi ≠ 0) (hs : 0 < spacingM) :
    spacingM * (ctx.pi / 8) / (2 * ctx.pi) = spacingM / 16 ∧
    ∃ N, ∀ fuel, N ≤ fuel →
      SpiralGenerator.generateSpiral ctx fuel centerLon centerLat maxRadiusM
        spacingM clockwise pointFreq =
      SpiralGenerator.generateSpiral ctx N centerLon centerLat maxRadiusM
        spacingM clockwise pointFreq := by
  have hinc : spacingM * (ctx.pi / 8) / (2 * ctx.pi) = spacingM / 16 := by
    field_simp
    ring
  refine ⟨hinc, ?_⟩
  refine ⟨(⌈maxRadiusM * 16 / spacingM⌉).toNat + 1, ?_⟩
  intro fuel hf
  have hceil : maxRadiusM * 16 / spacingM ≤ (⌈maxRadiusM * 16 / spacingM⌉ : ℚ) :=
    Int.le_ceil _
  have htn : (⌈maxRadiusM * 16 / spacingM⌉ : ℚ) ≤
      ((⌈maxRadiusM * 16 / spacingM⌉.toNat : ℤ) : ℚ) := by
    exact_mod_cast Int.self_le_toNat _
  have hlt : maxRadiusM * 16 / spacingM <
      ((⌈maxRadiusM * 16 / spacingM⌉.toNat + 1 : ℕ) : ℚ) := by
    push_cast
    push_cast at htn
    linarith
  have hN : maxRadiusM < 0 +
      ((⌈maxRadiusM * 16 / spacingM⌉.toNat + 1 : ℕ) : ℚ) *
        (spacingM * (ctx.pi / 8) / (2 * ctx.pi)) := by
    rw [hinc, zero_add]
    have hmul := mul_lt_mul_of_pos_right hlt
      (show (0 : ℚ) < spacingM / 16 by positivity)
    have heq : maxRadiusM * 16 / spacingM * (spacingM / 16) = maxRadiusM := by
      field_simp
    linarith
  simp only [SpiralGenerator.generateSpiral]
  exact spiralLoop_fuel_ext ctx centerLon centerLat maxRadiusM spacingM _
    pointFreq _ 0 _ fuel _ hN hf le_rfl

/-- C7 witness: at spacing 16, max radius 2, a sufficient step count exists. -/
theorem c7_spiral_terminates_witness :
    (16 : ℚ) * (ctx0.pi / 8) / (2 * ctx0.pi) = 16 / 16 ∧
    ∃ N, ∀ fuel, N ≤ fuel →
      SpiralGenerator.generateSpiral ctx0 fuel 0 0 2 16 true 1 =
      SpiralGenerator.generateSpiral ctx0 N 0 0 2 16 true 1 :=
  c7_spiral_terminates ctx0 0 0 2 16 true 1 (by norm_num [ctx0]) (by norm_num)

/-- C6.  The claim says every Nth generated point is retained.  In the code
the decimation test is `len(points) % point_freq == 0`, and `points` starts
with the center and only grows when the test passes; so for every
`point_freq ≥ 2` the length stays 1 and the test never passes again — the
output is only the center point, independent of spacing, radius, or step
count, while with `point_freq = 1` the very same loop does append generated
points (four of them in the concrete run below). -/
theorem c6_spiral_decimation_dead :
    (∀ (ctx : MathCtx) (fuel : ℕ) (clon clat maxr spacing : ℚ)
      (cw : Bool) (freq : ℕ), 2 ≤ freq →
      SpiralGenerator.generateSpiral ctx fuel clon clat maxr spacing cw freq
        = [(clon, clat)]) ∧
    (SpiralGenerator.generateSpiral ctx0 5 0 0 2 16 true 1).length = 4 := by
  constructor
  · have key : ∀ (ctx : MathCtx) (clon clat maxr spacing dir : ℚ)
        (freq : ℕ), 2 ≤ freq → ∀ (fuel : ℕ) (r : ℚ) (p : Pt),
        SpiralGenerator.spiralLoop ctx clon clat maxr spacing dir freq fuel
          r [p] = [p] := by
      intro ctx clon clat maxr spacing dir freq hfreq fuel
      induction fuel with
      | zero => intro r p; rfl
      | succ fuel ih =>
        intro r p
        by_cases hr : r ≤ maxr
        · have hm : ¬ ([p].length % freq = 0) := by
            simp only [List.length_cons, List.length_nil]
            rw [Nat.mod_eq_of_lt (by omega : 0 + 1 < freq)]
            omega
          simp only [SpiralGenerator.spiralLoop, hr, if_true]
          rw [if_neg hm]
          exact ih _ _
        · simp [SpiralGenerator.spiralLoop, hr]
    intro ctx fuel clon clat maxr spacing cw freq hfreq
    simp only [SpiralGenerator.generateSpiral]
    exact key ctx clon clat maxr spacing _ freq hfreq fuel 0 _
  · norm_num [SpiralGenerator.generateSpiral, SpiralGenerator.spiralLoop,
      ctx0]

/-- C6 witness: the first conjunct instantiated at decimation factor 2
(fuel 5, spacing 16, maximum radius 2 — the run that generates four points
at factor 1 yields only the center at factor 2). -/
theorem c6_spiral_decimation_dead_witness :
    SpiralGenerator.generateSpiral ctx0 5 0 0 2 16 true 2 = [(0, 0)] :=
  c6_spiral_decimation_dead.1 ctx0 5 0 0 2 16 true 2 (by norm_num)

/-- C10 witness: 2 passes yield 4 waypoints with the stated alternation. -/
theorem c10_rosette_witness :
    RosetteGenerator.generateRosette ctx0 0 0 10 0 0 = none ∧
    ∃ l, RosetteGenerator.generateRosette ctx0 0 0 10 2 0 = some l ∧
      l.length = 2 * (2 : ℤ).toNat ∧
      ∀ j, j < (2 : ℤ).toNat →
        l.get? (2 * j) = some
          ((round6 (rosetteRay ctx0 0 0 10 2 0 j).1),
           (round6 (rosetteRay ctx0 0 0 10 2 0 j).2)) ∧
        l.get? (2 * j + 1) = some (round6 0, round6 0) :=
  c10_rosette ctx0 0 0 10 0 2 (by norm_num)

/-- Indexing past the head of a cons cell, stated with `n + 1` so that it
rewrites against arithmetic index expressions. -/
theorem get?_cons_add_one {α : Type} (x : α) (l : List α) (n : ℕ) :
    (x :: l).get? (n + 1) = l.get? n := rfl

/-- The toggling loop emits two entries per waypoint. -/
theorem toggleRun_length (device h s : Value) :
    ∀ (b : Bool) (ws : List Pt),
      (Translator.toggleRun device h s b ws).length = 2 * ws.length
  | _, [] => rfl
  | b, _ :: ps => by
    simp [Translator.toggleRun, toggleRun_length device h s (!b) ps,
      Nat.mul_succ]

/-- Entries of the toggling loop: at offset `2j` the movement to waypoint
`j`, at offset `2j+1` the instrument action whose status alternates with
the parity of `j` relative to the initial flag. -/
theorem toggleRun_get (device h s : Value) :
    ∀ (ws : List Pt) (b : Bool) (j : ℕ) (p : Pt), ws.get? j = some p →
      (Translator.toggleRun device h s b ws).get? (2 * j) =
        some (some (Translator.movement h s p.1 p.2)) ∧
      (Translator.toggleRun device h s b ws).get? (2 * j + 1) =
        some (if xor b (decide (j % 2 = 1)) then
          Translator.action device "продолжить"
        else Translator.action device "пауза") := by
  intro ws
  induction ws with
  | nil => intro b j p hj; simp at hj
  | cons p0 tl ih =>
    intro b j p hj
    match j with
    | 0 =>
      simp only [List.get?_cons_zero, Option.some.injEq] at hj
      subst hj
      simp [Translator.toggleRun]
    | j + 1 =>
      simp only [List.get?_cons_succ] at hj
      have hrec := ih (!b) j p hj
      have h2 : 2 * (j + 1) = (2 * j + 1) + 1 := by omega
      rw [h2]
      simp only [Translator.toggleRun, get?_cons_add_one]
      refine ⟨hrec.1, ?_⟩
      rw [hrec.2]
      by_cases hj2 : j % 2 = 1
      · have hj3 : (j + 1) % 2 = 0 := by omega
        simp [hj2, hj3]
      · have hj3 : (j + 1) % 2 = 1 := by omega
        have hj4 : j % 2 = 0 := by omega
        simp [hj3, hj4]

/-- The full emitted block of the toggling branch for a single survey
command built by `mkSurveyParams`. -/
theorem translate_single_toggled (key : String) (dev : String)
    (h s : Value) (ws : List Pt)
    (hkey : key = "обследование_фигуры" ∨ key = "обследование_точки") :
    Translator.translate [(key, mkSurveyParams dev h s ws)] =
      some (Translator.action (.str dev) "вкл" ::
        Translator.toggleRun (.str dev) h s false ws ++
        [Translator.action (.str dev) "выкл"]) := by
  rcases hkey with rfl | rfl <;>
    simp [Translator.translate, Translator.translateCommand,
      Translator.branchToggled, mkSurveyParams, Translator.coordPoints,
      List.lookup]

/-- C2 (amended).  For every figure-survey command, and for every
point-survey command whose survey-pattern parameter is exactly the string
`меандр`, the emitted plan is: one instrument-ON entry, then for each of the
W waypoints one movement entry immediately followed by one pause/resume
instrument entry alternating on successive waypoints with the first being
pause, then one instrument-OFF entry — `2W + 2` entries in total.  (The
source compares `value["траектория"] == "меандр"` by equality, so a point
survey whose pattern is `меандр, вертикально` does NOT take this branch;
see the counterexample.) -/
theorem c2_plan_interleaving (key : String) (dev : String) (h s : Value)
    (ws : List Pt)
    (hkey : key = "обследование_фигуры" ∨ key = "обследование_точки") :
    ∃ plan, Translator.translate [(key, mkSurveyParams dev h s ws)] =
        some plan ∧
      plan.length = 2 * ws.length + 2 ∧
      plan.head? = some (Translator.action (.str dev) "вкл") ∧
      plan.getLast? = some (Translator.action (.str dev) "выкл") ∧
      ∀ j p, ws.get? j = some p →
        plan.get? (1 + 2 * j) =
          some (some (Translator.movement h s p.1 p.2)) ∧
        plan.get? (2 + 2 * j) = some (Translator.action (.str dev)
          (if j % 2 = 0 then "пауза" else "продолжить")) := by
  refine ⟨_, translate_single_toggled key dev h s ws hkey, ?_, ?_, ?_, ?_⟩
  · simp [toggleRun_length]
  · rfl
  · rw [show Translator.action (.str dev) "вкл" ::
        Translator.toggleRun (.str dev) h s false ws ++
        [Translator.action (.str dev) "выкл"] =
      (Translator.action (.str dev) "вкл" ::
        Translator.toggleRun (.str dev) h s false ws) ++
        [Translator.action (.str dev) "выкл"] from rfl]
    rw [List.getLast?_concat]
  · intro j p hj
    have hlt : j < ws.length := List.get?_eq_some.mp hj |>.1
    have hget := toggleRun_get (.str dev) h s ws false j p hj
    have hlen : (Translator.toggleRun (.str dev) h s false ws).length =
        2 * ws.length := toggleRun_length (.str dev) h s false ws
    have hcons : (Translator.action (.str dev) "вкл" ::
        Translator.toggleRun (.str dev) h s false ws).length =
        2 * ws.length + 1 := by
      simp [hlen]
    constructor
    · rw [show 1 + 2 * j = (2 * j) + 1 from by omega,
        List.get?_append (by omega), get?_cons_add_one, hget.1]
    · rw [show 2 + 2 * j = (2 * j + 1) + 1 from by omega,
        List.get?_append (by omega), get?_cons_add_one, hget.2]
      by_cases hj2 : j % 2 = 0
      · have : ¬ (j % 2 = 1) := by omega
        simp [hj2, this]
      · have : j % 2 = 1 := by omega
        simp [hj2, this]

/-- C2 witness: a figure survey with two waypoints. -/
theorem c2_plan_interleaving_witness :
    ∃ plan, Translator.translate [("обследование_фигуры",
        mkSurveyParams "гбо" (.num 5) (.num 1) [(1, 2), (3, 4)])] =
        some plan ∧
      plan.length = 2 * ([((1 : ℚ), (2 : ℚ)), (3, 4)]).length + 2 ∧
      plan.head? = some (Translator.action (.str "гбо") "вкл") ∧
      plan.getLast? = some (Translator.action (.str "гбо") "выкл") ∧
      ∀ j p, ([((1 : ℚ), (2 : ℚ)), (3, 4)]).get? j = some p →
        plan.get? (1 + 2 * j) =
          some (some (Translator.movement (.num 5) (.num 1) p.1 p.2)) ∧
        plan.get? (2 + 2 * j) = some (Translator.action (.str "гбо")
          (if j % 2 = 0 then "пауза" else "продолжить")) :=
  c2_plan_interleaving "обследование_фигуры" "гбо" (.num 5) (.num 1)
    [(1, 2), (3, 4)] (Or.inl rfl)

/-- C2 counterexample.  The §8 end-to-end point survey has survey-pattern
`меандр, вертикально`, which fails the source's equality test
`value["траектория"] == "меандр"`; with its 6 waypoints the emitted plan is
ON + 6 movements + OFF = 8 entries, not the claimed 14. -/
theorem c2_counterexample :
    (Translator.translate [("обследование_точки",
      [("прибор", .str "гбо"), ("высота", .num 5), ("скорость", .num 1),
       ("траектория", .str "меандр, вертикально"),
       ("координаты", .coords [("координаты",
         [(0, 0), (0, 1), (1, 1), (1, 0), (2, 0), (2, 1)])])])]).map
      List.length = some 8 ∧ (8 : ℕ) ≠ 14 := by
  constructor
  · simp [Translator.translate, Translator.translateCommand,
      Translator.branchPlain, Translator.coordPoints, List.lookup]
  · norm_num

/-- C8 (amended).  For a (device, status) pair with no defined instrument
action — here the multibeam echosounder (`млэ`) with resume (`продолжить`),
which arises at the second waypoint of the toggling branch — the action
lookup returns no record, but the emitter still appends the `None` result,
so the Mission Plan contains a null placeholder entry for that pair rather
than no entry at all, and the block keeps its `2W + 2` length. -/
theorem c8_undefined_pair_null_entry (h s : Value) (p1 p2 : Pt)
    (rest : List Pt) :
    Translator.action (.str "млэ") "продолжить" = none ∧
    ∃ plan, Translator.translate [("обследование_фигуры",
        mkSurveyParams "млэ" h s (p1 :: p2 :: rest))] = some plan ∧
      plan.get? 4 = some none ∧
      plan.length = 2 * (p1 :: p2 :: rest).length + 2 := by
  refine ⟨by simp [Translator.action], _,
    translate_single_toggled "обследование_фигуры" "млэ" h s
      (p1 :: p2 :: rest) (Or.inl rfl), ?_, ?_⟩
  · simp [Translator.toggleRun, Translator.action, List.get?]
  · simp [toggleRun_length, Nat.mul_succ]

/-- C8 counterexample.  The claim says the plan contains no entry for the
undefined (млэ, продолжить) pair; in the code `tasks.append` appends the
`None` returned by the lookup, so the concrete two-waypoint figure survey
below emits 6 entries (`2W + 2`) with a null entry in fourth position. -/
theorem c8_counterexample :
    ∃ plan, Translator.translate [("обследование_фигуры",
        mkSurveyParams "млэ" (.num 5) (.num 1) [(0, 0), (0, 1)])] =
        some plan ∧
      plan.length = 6 ∧ plan.get? 4 = some none := by
  refine ⟨_, translate_single_toggled "обследование_фигуры" "млэ" (.num 5)
    (.num 1) [(0, 0), (0, 1)] (Or.inl rfl), ?_, ?_⟩
  · simp [Translator.toggleRun]
  · simp [Translator.toggleRun, Translator.action, List.get?]

/-- Python `str.strip()` on a character list (leading and trailing
whitespace removed). -/
def pystrip (l : List Char) : List Char :=
  ((l.dropWhile Char.isWhitespace).reverse.dropWhile Char.isWhitespace).reverse

/-- Python `raw.split('=', 1)`: the text before and after the first `=`,
or `none` when there is no `=` (in which case the source's tuple unpacking
raises `ValueError`). -/
def splitEqFirst : List Char → Option (List Char × List Char)
  | [] => none
  | c :: rest =>
    if c = '=' then some ([], rest)
    else
      match splitEqFirst rest with
      | some (l, r) => some (c :: l, r)
      | none => none

namespace PyEval

/-- Tokens of the arithmetic-expression subset of Python `eval` used by
`Variables` (numeric literals, identifiers, `+ - * / ( )`).  All
identifiers evaluate to `NameError` because `eval(value)` in
`Variables.get_variable` runs with no access to the table's bindings
(names shadowing Python builtins are outside the modelled subset). -/
inductive Tok where
  | num (ip fn fk : ℕ)
  | ident
  | lparen
  | rparen
  | plus
  | minus
  | star
  | slash
  deriving DecidableEq

/-- The rational value of a numeric literal token: integer part `ip`,
fraction digits `fn` over `10 ^ fk` (the decimal value of the literal). -/
def Tok.val (ip fn fk : ℕ) : ℚ := (ip : ℚ) + (fn : ℚ) / 10 ^ fk

/-- Outcome of Python `eval` as `Variables.get_variable` observes it:
a numeric result, an exception caught by the source's
`except (NameError, SyntaxError)`, or an uncaught exception
(e.g. `ZeroDivisionError`). -/
inductive EvalOut where
  | ok (q : ℚ)
  | caught
  | crash
  deriving DecidableEq

/-- Scan a run of digits, accumulating the integer value. -/
def lexNum (acc : ℕ) : List Char → ℕ × List Char
  | [] => (acc, [])
  | c :: rest =>
    if c.isDigit then lexNum (10 * acc + (c.toNat - 48)) rest
    else (acc, c :: rest)

/-- Scan a run of digits after the decimal point, accumulating the digit
string as a natural number together with its length. -/
def lexFrac (fn fk : ℕ) : List Char → (ℕ × ℕ) × List Char
  | [] => ((fn, fk), [])
  | c :: rest =>
    if c.isDigit then lexFrac (10 * fn + (c.toNat - 48)) (fk + 1) rest
    else ((fn, fk), c :: rest)

/-- A character that can continue an identifier. -/
def isIdentChar (c : Char) : Bool := c.isAlphanum || c = '_'

/-- Tokenizer (fuel-bounded; `none` is a lexical `SyntaxError`, which the
source catches). -/
def tokenize : ℕ → List Char → Option (List Tok)
  | 0, _ => none
  | _ + 1, [] => some []
  | fuel + 1, c :: rest =>
    if c = ' ' then tokenize fuel rest
    else if c.isDigit then
      match lexNum 0 (c :: rest) with
      | (ip, '.' :: rest2) =>
        match lexFrac 0 0 rest2 with
        | ((fn, fk), rest3) =>
          (tokenize fuel rest3).map (Tok.num ip fn fk :: ·)
      | (ip, rest1) => (tokenize fuel rest1).map (Tok.num ip 0 0 :: ·)
    else if c = '.' then
      match rest with
      | d :: _ =>
        if d.isDigit then
          match lexFrac 0 0 rest with
          | ((fn, fk), rest3) =>
            (tokenize fuel rest3).map (Tok.num 0 fn fk :: ·)
        else none
      | [] => none
    else if c = '+' then (tokenize fuel rest).map (Tok.plus :: ·)
    else if c = '-' then (tokenize fuel rest).map (Tok.minus :: ·)
    else if c = '*' then (tokenize fuel rest).map (Tok.star :: ·)
    else if c = '/' then (tokenize fuel rest).map (Tok.slash :: ·)
    else if c = '(' then (tokenize fuel rest).map (Tok.lparen :: ·)
    else if c = ')' then (tokenize fuel rest).map (Tok.rparen :: ·)
    else (tokenize fuel (rest.dropWhile isIdentChar)).map (Tok.ident :: ·)

/-- Errors during parse/evaluation: `caught` covers `NameError` and
`SyntaxError` (both caught by the source), `crash` the rest
(`ZeroDivisionError`). -/
inductive PErr where
  | caught
  | crash
  deriving DecidableEq

mutual

/-- expression := term ((`+` | `-`) term)* , evaluated left to right. -/
def parseExpr : ℕ → List Tok → Except PErr (ℚ × List Tok)
  | 0, _ => .error .caught
  | fuel + 1, toks =>
    match parseTerm fuel toks with
    | .ok (q, rest) => parseExprRest fuel q rest
    | .error e => .error e

def parseExprRest : ℕ → ℚ → List Tok → Except PErr (ℚ × List Tok)
  | 0, _, _ => .error .caught
  | fuel + 1, acc, toks =>
    match toks with
    | .plus :: rest =>
      match parseTerm fuel rest with
      | .ok (q, rest2) => parseExprRest fuel (acc + q) rest2
      | .error e => .error e
    | .minus :: rest =>
      match parseTerm fuel rest with
      | .ok (q, rest2) => parseExprRest fuel (acc - q) rest2
      | .error e => .error e
    | _ => .ok (acc, toks)

/-- term := atom ((`*` | `/`) atom)* ; division by zero is an uncaught
`ZeroDivisionError`. -/
def parseTerm : ℕ → List Tok → Except PErr (ℚ × List Tok)
  | 0, _ => .error .caught
  | fuel + 1, toks =>
    match parseAtom fuel toks with
    | .ok (q, rest) => parseTermRest fuel q rest
    | .error e => .error e

def parseTermRest : ℕ → ℚ → List Tok → Except PErr (ℚ × List Tok)
  | 0, _, _ => .error .caught
  | fuel + 1, acc, toks =>
    match toks with
    | .star :: rest =>
      match parseAtom fuel rest with
      | .ok (q, rest2) => parseTermRest fuel (acc * q) rest2
      | .error e => .error e
    | .slash :: rest =>
      match parseAtom fuel rest with
      | .ok (q, rest2) =>
        if q = 0 then .error .crash else parseTermRest fuel (acc / q) rest2
      | .error e => .error e
    | _ => .ok (acc, toks)

/-- atom := number | identifier (`NameError`) | `(` expression `)` |
(`+` | `-`) atom . -/
def parseAtom : ℕ → List Tok → Except PErr (ℚ × List Tok)
  | 0, _ => .error .caught
  | fuel + 1, toks =>
    match toks with
    | .num ip fn fk :: rest => .ok (Tok.val ip fn fk, rest)
    | .ident :: _ => .error .caught
    | .lparen :: rest =>
      match parseExpr fuel rest with
      | .ok (q, .rparen :: rest2) => .ok (q, rest2)
      | .ok _ => .error .caught
      | .error e => .error e
    | .plus :: rest => parseAtom fuel rest
    | .minus :: rest =>
      match parseAtom fuel rest with
      | .ok (q, rest2) => .ok (-q, rest2)
      | .error e => .error e
    | _ => .error .caught

end

/-- Evaluate a token stream completely; trailing tokens are a
`SyntaxError`. -/
def pyEvalTokens (toks : List Tok) : EvalOut :=
  match parseExpr (4 * toks.length + 8) toks with
  | .ok (q, []) => .ok q
  | .ok (_, _ :: _) => .caught
  | .error .caught => .caught
  | .error .crash => .crash

/-- Model of Python `eval(s)` as observed by `Variables.get_variable`:
best-effort arithmetic over numeric literals only. -/
def pyEval (s : String) : EvalOut :=
  match tokenize (s.length + 1) s.data with
  | none => .caught
  | some toks => pyEvalTokens toks

end PyEval

namespace Variables

/-- `Variables.set_raw_variable` (`modules/analyzator.py` lines 68-76):
split the raw line on the first `=`, strip both sides, store the literal
string (`none` models the `ValueError` of tuple unpacking when `=` is
absent). -/
def setRawVariable (t : Params) (raw : String) : Option Params :=
  match splitEqFirst raw.data with
  | none => none
  | some (n, v) =>
    some (setKey t (String.mk (pystrip n)) (.str (String.mk (pystrip v))))

/-- `Variables.get_variable` (lines 95-113): default when unbound; stored
value otherwise, with a best-effort `eval` attempted on string values —
note `eval` runs without access to the table, so bound variable names are
not resolvable inside expressions.  `.error` models an uncaught exception
escaping `eval` (e.g. `ZeroDivisionError`). -/
def getVariable (t : Params) (name : String) (default : Value) :
    Except Unit Value :=
  match List.lookup name t with
  | none => .ok default
  | some (.str s) =>
    match PyEval.pyEval s with
    | .ok q => .ok (.num q)
    | .caught => .ok (.str s)
    | .crash => .error ()
  | some v => .ok v

/-- A sequence of assignment lines processed through
`set_raw_variable`, in order (as `Analyzator.analyze` does for variable
tokens). -/
def processAssignments : Params → List String → Option Params
  | t, [] => some t
  | t, line :: rest =>
    match setRawVariable t line with
    | none => none
    | some t2 => processAssignments t2 rest

end Variables

/-- C3 (amended).  For names bound via assignment lines, `resolve(name)`
returns the stored value; when the stored value is a string it is evaluated
best-effort as an arithmetic expression over numeric literals ONLY — the
source calls `eval(value)` with no access to the variable table, so an
expression referencing a previously bound variable raises `NameError` and
the literal string is returned instead; an unbound name resolves to the
caller-supplied default; and resolution depends only on the binding of
`name`, never on the other bindings. -/
theorem c3_variable_resolution (t : Params) (name : String)
    (default : Value) :
    (List.lookup name t = none →
      Variables.getVariable t name default = .ok default) ∧
    (∀ q, List.lookup name t = some (.num q) →
      Variables.getVariable t name default = .ok (.num q)) ∧
    (∀ s q, List.lookup name t = some (.str s) →
      PyEval.pyEval s = .ok q →
      Variables.getVariable t name default = .ok (.num q)) ∧
    (∀ s, List.lookup name t = some (.str s) →
      PyEval.pyEval s = .caught →
      Variables.getVariable t name default = .ok (.str s)) ∧
    (∀ t2 : Params, List.lookup name t = List.lookup name t2 →
      Variables.getVariable t name default =
        Variables.getVariable t2 name default) := by
  refine ⟨?_, ?_, ?_, ?_, ?_⟩
  · intro h
    simp [Variables.getVariable, h]
  · intro q h
    simp [Variables.getVariable, h]
  · intro s q h he
    simp [Variables.getVariable, h, he]
  · intro s h he
    simp [Variables.getVariable, h, he]
  · intro t2 h
    simp [Variables.getVariable, h]

/-- C3 witness: a table binding `c` to the literal `2+3` resolves `c` to 5. -/
theorem c3_variable_resolution_witness :
    Variables.getVariable [("c", Value.str "2+3")] "c" .null =
      .ok (.num 5) :=
  (c3_variable_resolution [("c", Value.str "2+3")] "c" .null).2.2.1 "2+3" 5
    (by decide)
    (by
      unfold PyEval.pyEval
      rw [show "2+3".length + 1 = 4 from rfl,
        show PyEval.tokenize 4 "2+3".data =
          some [.num 2 0 0, .plus, .num 3 0 0] from by decide]
      norm_num [PyEval.pyEvalTokens, PyEval.parseExpr, PyEval.parseExprRest,
        PyEval.parseTerm, PyEval.parseTermRest, PyEval.parseAtom,
        PyEval.Tok.val])

/-- C3 counterexample.  After `a = 2` and `b = a+1`, the claim says
`resolve("b")` returns 3 (arithmetic over the already-bound numeric `a`);
the code's `eval` cannot see the binding of `a`, raises `NameError`, and
`resolve("b")` returns the literal string `a+1` — while purely numeric
arithmetic (`c = 2+3`) does evaluate. -/
theorem c3_counterexample :
    ∃ t, Variables.processAssignments [] ["a = 2", "b = a+1", "c = 2+3"] =
        some t ∧
      Variables.getVariable t "a" .null = .ok (.num 2) ∧
      Variables.getVariable t "b" .null = .ok (.str "a+1") ∧
      Variables.getVariable t "c" .null = .ok (.num 5) ∧
      Value.str "a+1" ≠ Value.num 3 := by
  have h2 : PyEval.pyEval "2" = .ok 2 := by
    unfold PyEval.pyEval
    rw [show "2".length + 1 = 2 from rfl,
      show PyEval.tokenize 2 "2".data = some [.num 2 0 0] from by decide]
    norm_num [PyEval.pyEvalTokens, PyEval.parseExpr, PyEval.parseExprRest,
      PyEval.parseTerm, PyEval.parseTermRest, PyEval.parseAtom,
      PyEval.Tok.val]
  have ha1 : PyEval.pyEval "a+1" = .caught := by
    unfold PyEval.pyEval
    rw [show "a+1".length + 1 = 4 from rfl,
      show PyEval.tokenize 4 "a+1".data =
        some [.ident, .plus, .num 1 0 0] from by decide]
    norm_num [PyEval.pyEvalTokens, PyEval.parseExpr, PyEval.parseExprRest,
      PyEval.parseTerm, PyEval.parseTermRest, PyEval.parseAtom,
      PyEval.Tok.val]
  have h23 : PyEval.pyEval "2+3" = .ok 5 := by
    unfold PyEval.pyEval
    rw [show "2+3".length + 1 = 4 from rfl,
      show PyEval.tokenize 4 "2+3".data =
        some [.num 2 0 0, .plus, .num 3 0 0] from by decide]
    norm_num [PyEval.pyEvalTokens, PyEval.parseExpr, PyEval.parseExprRest,
      PyEval.parseTerm, PyEval.parseTermRest, PyEval.parseAtom,
      PyEval.Tok.val]
  refine ⟨[("a", .str "2"), ("b", .str "a+1"), ("c", .str "2+3")],
    by decide, ?_, ?_, ?_, by simp⟩
  · simp [Variables.getVariable, List.lookup, h2]
  · simp [Variables.getVariable, List.lookup, ha1]
  · simp [Variables.getVariable, List.lookup, h23]

/-- Python `str.lower()` for the Latin and Cyrillic letters the scripts
use. -/
def pyLowerChar (c : Char) : Char :=
  if 'A' ≤ c ∧ c ≤ 'Z' then Char.ofNat (c.toNat + 32)
  else if 'А' ≤ c ∧ c ≤ 'Я' then Char.ofNat (c.toNat + 32)
  else if c = 'Ё' then 'ё'
  else c

/-- Python `str.lower()` on a whole string. -/
def pyLower (s : String) : String := String.mk (s.data.map pyLowerChar)

/-- Does the second list occur at the head of the first? -/
def headMatches : List Char → List Char → Bool
  | [], _ => true
  | _ :: _, [] => false
  | a :: as, b :: bs => a = b && headMatches as bs

/-- Python substring test `needle in hay` (contiguous occurrence). -/
def containsSub (hay needle : List Char) : Bool :=
  match hay with
  | [] => needle.isEmpty
  | _ :: t => headMatches needle hay || containsSub t needle

/-- Digits of a nonempty all-digit character run, as a natural number. -/
def parseDigits : List Char → Option ℕ
  | [] => none
  | l =>
    if l.all Char.isDigit then
      some (l.foldl (fun acc c => 10 * acc + (c.toNat - 48)) 0)
    else none

/-- Python `float(s)` on a string: optional surrounding whitespace and
sign, then digits with an optional decimal point (`"5"`, `"5."`, `".5"`,
`"2.75"`); anything else raises (`none`).  Exponents and special values
are outside the modelled subset. -/
def parseFloatChars (l : List Char) : Option ℚ :=
  let l := pystrip l
  let (sign, l) : ℚ × List Char :=
    match l with
    | '-' :: rest => (-1, rest)
    | '+' :: rest => (1, rest)
    | _ => (1, l)
  let ip := l.takeWhile Char.isDigit
  let rest := l.dropWhile Char.isDigit
  match rest with
  | [] => if ip.isEmpty then none else (parseDigits ip).map (fun n => sign * n)
  | '.' :: frac =>
    if frac.all Char.isDigit ∧ ¬ (ip.isEmpty ∧ frac.isEmpty) then
      some (sign * ((ip.foldl (fun acc c => 10 * acc + (c.toNat - 48)) 0 : ℚ)
        + (frac.foldl (fun acc c => 10 * acc + (c.toNat - 48)) 0 : ℕ) /
          10 ^ frac.length))
    else none
  | _ => none

/-- Python `int(s)` on a string: optional whitespace/sign then digits only. -/
def parseIntChars (l : List Char) : Option ℤ :=
  let l := pystrip l
  match l with
  | '-' :: rest => (parseDigits rest).map (fun n => -(n : ℤ))
  | '+' :: rest => (parseDigits rest).map (fun n => (n : ℤ))
  | _ => (parseDigits l).map (fun n => (n : ℤ))

/-- Python `float(v)`: numbers pass through, strings are parsed, anything
else raises (`none`). -/
def pyFloatV : Value → Option ℚ
  | .int n => some (n : ℚ)
  | .num q => some q
  | .str s => parseFloatChars s.data
  | _ => none

/-- Python `int(v)`: floats truncate toward zero, strings must be integral
literals, anything else raises (`none`). -/
def pyIntV : Value → Option ℤ
  | .int n => some n
  | .num q => some (pytrunc q)
  | .str s => parseIntChars s.data
  | _ => none

namespace ParametersValidator

/-- A declared parameter type of `ParametersValidator.PARAM_TYPES`. -/
inductive PType where
  | pfloat
  | pint
  deriving DecidableEq

/-- `ParametersValidator.PARAM_TYPES` (`modules/processing.py` lines
9-21). -/
def paramTypes : List (String × PType) :=
  [("ширина", .pfloat), ("длина", .pfloat), ("высота", .pfloat),
   ("глубина", .pfloat), ("межгалс", .pfloat), ("радиус", .pfloat),
   ("скорость", .pfloat), ("угол", .pfloat), ("линии", .pint),
   ("максимальное_время", .pint), ("время_без_связи", .pint)]

/-- The validation rule set as loaded from the configuration resource
(`Required`, `Optional` — already reduced to its per-command default map —
and `TrajectoryDependent`). -/
structure RuleSet where
  required : List (String × List String)
  optional : List (String × List (String × Value))
  trajectoryDependent : List (String × List (String × List String))

/-- The external value-resolution collaborator
(`_prompt_for_parameter`, lines 141-156).  Modelled from the spec: §6's
`resolve_missing(command_kind, parameter_name) -> value`; the source wraps
the terminal prompt in a retry loop until the typed conversion succeeds,
so the collaborator is modelled as directly returning the resolved
value. -/
def Resolver := String → String → Value

/-- `ParametersValidator._process_point_survey` (lines 67-80): prompt for a
missing survey pattern, then prompt for the still-missing dependent
parameters of every pattern key contained (case-insensitive substring) in
the pattern text.  A non-string pattern value makes `.lower()` raise
(`none`). -/
def processPointSurvey (rs : RuleSet) (resolver : Resolver)
    (params : Params) : Option Params :=
  let params :=
    if hasKey params "траектория" then params
    else setKey params "траектория" (resolver "обследование_точки" "траектория")
  match List.lookup "обследование_точки" rs.trajectoryDependent with
  | none => some params
  | some deps =>
    match List.lookup "траектория" params with
    | some (.str t) =>
      let tl := pyLower t
      some (deps.foldl (fun ps d =>
        if containsSub tl.data d.1.data then
          d.2.foldl (fun ps p =>
            if hasKey ps p then ps
            else setKey ps p (resolver "обследование_точки" p)) ps
        else ps) params)
    | _ => none

/-- `ParametersValidator._process_height_depth` (lines 82-102): drop depth
when both are present; fold a lone depth into `высота = -abs(float(глубина))`
(`none` when `float` raises); prompt for a missing height only when it is
required for this command. -/
def processHeightDepth (rs : RuleSet) (resolver : Resolver)
    (cmdName : String) (params : Params) : Option Params :=
  let hasH := hasKey params "высота"
  let hasD := hasKey params "глубина"
  if hasH && hasD then some (delKey params "глубина")
  else if hasD then
    match List.lookup "глубина" params with
    | some v =>
      match pyFloatV v with
      | some q => some (delKey (setKey params "высота" (.num (-|q|))) "глубина")
      | none => none
    | none => none
  else if !hasH then
    match List.lookup cmdName rs.required with
    | some req =>
      if req.contains "высота" then
        some (setKey params "высота" (resolver cmdName "высота"))
      else some params
    | none => some params
  else some params

/-- `ParametersValidator._check_required_parameters` (lines 104-110):
resolve every still-missing required parameter. -/
def checkRequired (rs : RuleSet) (resolver : Resolver) (cmdName : String)
    (params : Params) : Params :=
  match List.lookup cmdName rs.required with
  | none => params
  | some req =>
    req.foldl (fun ps p =>
      if hasKey ps p then ps else setKey ps p (resolver cmdName p)) params

/-- `ParametersValidator._apply_optional_parameters` (lines 112-118): add
the configured default for every absent optional parameter. -/
def applyOptional (rs : RuleSet) (cmdName : String) (params : Params) :
    Params :=
  match List.lookup cmdName rs.optional with
  | none => params
  | some opt =>
    opt.foldl (fun ps pd =>
      if hasKey ps pd.1 then ps else setKey ps pd.1 pd.2) params

/-- One step of `_convert_parameter_types` (lines 120-139): `None` values
are skipped, values already of the declared type are kept, the rest are
converted; `none` is the conversion `ValueError`. -/
def convertValue (pt : PType) (v : Value) : Option Value :=
  match pt, v with
  | _, .null => some .null
  | .pfloat, .num q => some (.num q)
  | .pfloat, v => (pyFloatV v).map .num
  | .pint, .int n => some (.int n)
  | .pint, v => (pyIntV v).map .int

/-- `ParametersValidator._convert_parameter_types` over the whole map;
`.error` carries the offending parameter name. -/
def convertParamTypes : Params → Except String Params
  | [] => .ok []
  | (k, v) :: rest =>
    match List.lookup k paramTypes with
    | none => (convertParamTypes rest).map ((k, v) :: ·)
    | some pt =>
      match convertValue pt v with
      | some v2 => (convertParamTypes rest).map ((k, v2) :: ·)
      | none => .error k

/-- `ParametersValidator._validate_command` (lines 49-65): point-survey
bootstrap, height/depth normalization, required check, optional defaults,
type coercion; any raised error aborts the command. -/
def validateCommand (rs : RuleSet) (resolver : Resolver)
    (c : String × Params) : Except String (String × Params) :=
  match
    (if c.1 = "обследование_точки" then
      processPointSurvey rs resolver c.2
    else some c.2) with
  | none => .error "AttributeError: lower"
  | some params1 =>
    match processHeightDepth rs resolver c.1 params1 with
    | none => .error "ValueError: float"
    | some params2 =>
      let params3 := checkRequired rs resolver c.1 params2
      let params4 := applyOptional rs c.1 params3
      match convertParamTypes params4 with
      | .ok params5 => .ok (c.1, params5)
      | .error e => .error e

end ParametersValidator

/-- Updating the entry of `k` makes `k` resolve to the new value. -/
theorem lookup_map_set (k : String) (v : Value) :
    ∀ ps : Params, (List.lookup k ps).isSome →
      List.lookup k
        (ps.map (fun kv => if kv.1 = k then (k, v) else kv)) = some v
  | [], h => by simp at h
  | (a, w) :: t, h => by
    by_cases hk : a = k
    · subst hk
      simp [List.lookup_cons]
    · have hne : (k == a) = false := beq_false_of_ne (Ne.symm hk)
      simp only [List.map_cons, if_neg hk]
      rw [List.lookup_cons]
      simp only [hne]
      exact lookup_map_set k v t
        (by simpa [List.lookup_cons, hne] using h)

/-- Updating the entry of `k` leaves other keys untouched. -/
theorem lookup_map_set_other (k k' : String) (v : Value) (h : k' ≠ k) :
    ∀ ps : Params,
      List.lookup k'
        (ps.map (fun kv => if kv.1 = k then (k, v) else kv)) =
      List.lookup k' ps
  | [] => rfl
  | (a, w) :: t => by
    by_cases hk : a = k
    · subst hk
      have hne : (k' == a) = false := beq_false_of_ne h
      simp [List.lookup_cons, hne]
      exact lookup_map_set_other a k' v h t
    · simp only [List.map_cons, if_neg hk]
      rw [List.lookup_cons, List.lookup_cons]
      cases hb : k' == a
      · exact lookup_map_set_other k k' v h t
      · rfl

/-- Appending a fresh `(k, v)` entry makes `k` resolve to `v`. -/
theorem lookup_append_self (k : String) (v : Value) :
    ∀ ps : Params, List.lookup k (ps ++ [(k, v)]) = (List.lookup k ps).getD v
  | [] => by simp [List.lookup_cons]
  | (a, w) :: t => by
    rw [List.cons_append, List.lookup_cons, List.lookup_cons]
    cases hb : k == a
    · exact lookup_append_self k v t
    · rfl

/-- Appending an entry for `k` leaves other keys untouched. -/
theorem lookup_append_other (k k' : String) (v : Value) (h : k' ≠ k) :
    ∀ ps : Params, List.lookup k' (ps ++ [(k, v)]) = List.lookup k' ps
  | [] => by
    have hne : (k' == k) = false := beq_false_of_ne h
    simp [List.lookup_cons, hne]
  | (a, w) :: t => by
    rw [List.cons_append, List.lookup_cons, List.lookup_cons]
    cases hb : k' == a
    · exact lookup_append_other k k' v h t
    · rfl

/-- Dict assignment: the assigned key resolves to the new value. -/
theorem lookup_setKey_self (ps : Params) (k : String) (v : Value) :
    List.lookup k (setKey ps k v) = some v := by
  unfold setKey hasKey
  split
  · exact lookup_map_set k v ps (by assumption)
  · rename_i h
    rw [lookup_append_self]
    cases hx : List.lookup k ps
    · rfl
    · exact absurd (by simp [hx]) h

/-- Dict assignment leaves other keys untouched. -/
theorem lookup_setKey_other (ps : Params) (k k' : String) (v : Value)
    (h : k' ≠ k) : List.lookup k' (setKey ps k v) = List.lookup k' ps := by
  unfold setKey
  split
  · exact lookup_map_set_other k k' v h ps
  · exact lookup_append_other k k' v h ps

/-- Boolean equality on strings is symmetric in its falsehood. -/
theorem string_beq_false_symm {a b : String} (h : (a == b) = false) :
    (b == a) = false := by
  have hne : a ≠ b := by
    intro he
    subst he
    simp at h
  exact beq_false_of_ne (Ne.symm hne)

/-- Dict deletion removes the key. -/
theorem lookup_delKey_self (k : String) :
    ∀ ps : Params, List.lookup k (delKey ps k) = none
  | [] => rfl
  | (a, w) :: t => by
    rw [delKey, List.filter_cons]
    cases hb : (a == k)
    · simp only [Bool.not_false, if_true]
      rw [List.lookup_cons]
      simp only [string_beq_false_symm hb]
      exact lookup_delKey_self k t
    · simp only [Bool.not_true, if_false]
      exact lookup_delKey_self k t

/-- Dict deletion leaves other keys untouched. -/
theorem lookup_delKey_other (k k' : String) (h : k' ≠ k) :
    ∀ ps : Params, List.lookup k' (delKey ps k) = List.lookup k' ps
  | [] => rfl
  | (a, w) :: t => by
    rw [delKey, List.filter_cons]
    cases hb : (a == k)
    · simp only [Bool.not_false, if_true]
      rw [List.lookup_cons, List.lookup_cons]
      cases hx : k' == a
      · exact lookup_delKey_other k k' h t
      · rfl
    · simp only [Bool.not_true, if_false]
      have ha : a = k := by
        have := beq_iff_eq.mp hb
        exact this
      subst ha
      rw [List.lookup_cons]
      simp only [beq_false_of_ne h]
      exact lookup_delKey_other a k' h t

/-- Folding add-if-missing over parameter names never touches a key that is
not in the list. -/
theorem lookup_foldl_add_not_mem (cmd : String)
    (resolver : ParametersValidator.Resolver) (k : String) :
    ∀ (l : List String) (ps : Params), ¬ k ∈ l →
      List.lookup k (l.foldl (fun ps p =>
        if hasKey ps p then ps else setKey ps p (resolver cmd p)) ps) =
      List.lookup k ps
  | [], _, _ => rfl
  | p :: t, ps, h => by
    have hp : k ≠ p := fun he => h (he ▸ List.mem_cons_self p t)
    have ht : ¬ k ∈ t := fun hm => h (List.mem_cons_of_mem p hm)
    simp only [List.foldl_cons]
    rw [lookup_foldl_add_not_mem cmd resolver k t _ ht]
    split
    · rfl
    · exact lookup_setKey_other ps p k (resolver cmd p) hp

/-- Folding add-if-missing preserves the binding of an already-present
key. -/
theorem lookup_foldl_add_present (cmd : String)
    (resolver : ParametersValidator.Resolver) (k : String) (v : Value) :
    ∀ (l : List String) (ps : Params), List.lookup k ps = some v →
      List.lookup k (l.foldl (fun ps p =>
        if hasKey ps p then ps else setKey ps p (resolver cmd p)) ps) =
      some v
  | [], _, h => h
  | p :: t, ps, h => by
    simp only [List.foldl_cons]
    apply lookup_foldl_add_present cmd resolver k v t
    by_cases hp : p = k
    · subst hp
      have hh : hasKey ps p = true := by
        unfold hasKey
        rw [h]
        rfl
      rw [if_pos hh]
      exact h
    · split
      · exact h
      · rw [lookup_setKey_other ps p k (resolver cmd p) (Ne.symm hp)]
        exact h

/-- Folding optional defaults never touches a key whose name is not among
the defaults. -/
theorem lookup_foldl_opt_not_mem (k : String) :
    ∀ (l : List (String × Value)) (ps : Params), (∀ pd ∈ l, pd.1 ≠ k) →
      List.lookup k (l.foldl (fun ps pd =>
        if hasKey ps pd.1 then ps else setKey ps pd.1 pd.2) ps) =
      List.lookup k ps
  | [], _, _ => rfl
  | pd :: t, ps, h => by
    have hp : k ≠ pd.1 := Ne.symm (h pd (List.mem_cons_self pd t))
    have ht : ∀ pd2 ∈ t, pd2.1 ≠ k :=
      fun pd2 hm => h pd2 (List.mem_cons_of_mem pd hm)
    simp only [List.foldl_cons]
    rw [lookup_foldl_opt_not_mem k t _ ht]
    split
    · rfl
    · exact lookup_setKey_other ps pd.1 k pd.2 hp

/-- Folding optional defaults preserves the binding of an already-present
key. -/
theorem lookup_foldl_opt_present (k : String) (v : Value) :
    ∀ (l : List (String × Value)) (ps : Params), List.lookup k ps = some v →
      List.lookup k (l.foldl (fun ps pd =>
        if hasKey ps pd.1 then ps else setKey ps pd.1 pd.2) ps) = some v
  | [], _, h => h
  | pd :: t, ps, h => by
    simp only [List.foldl_cons]
    apply lookup_foldl_opt_present k v t
    by_cases hp : pd.1 = k
    · have hh : hasKey ps pd.1 = true := by
        unfold hasKey
        rw [hp, h]
        rfl
      rw [if_pos hh]
      exact h
    · split
      · exact h
      · rw [lookup_setKey_other ps pd.1 k pd.2 (Ne.symm hp)]
        exact h

/-- The trajectory-dependent prompting loop never touches a key absent from
every dependent-parameter list. -/
theorem lookup_foldl_deps_not_mem (resolver : ParametersValidator.Resolver)
    (tl : String) (k : String) :
    ∀ (deps : List (String × List String)) (ps : Params),
      (∀ d ∈ deps, ¬ k ∈ d.2) →
      List.lookup k (deps.foldl (fun ps d =>
        if containsSub tl.data d.1.data then
          d.2.foldl (fun ps p =>
            if hasKey ps p then ps
            else setKey ps p (resolver "обследование_точки" p)) ps
        else ps) ps) = List.lookup k ps
  | [], _, _ => rfl
  | d :: t, ps, h => by
    have hd : ¬ k ∈ d.2 := h d (List.mem_cons_self d t)
    have ht : ∀ d2 ∈ t, ¬ k ∈ d2.2 :=
      fun d2 hm => h d2 (List.mem_cons_of_mem d hm)
    simp only [List.foldl_cons]
    rw [lookup_foldl_deps_not_mem resolver tl k t _ ht]
    split
    · exact lookup_foldl_add_not_mem "обследование_точки" resolver k d.2 ps hd
    · rfl

/-- A key that resolves to nothing is not among the entry keys. -/
theorem keys_ne_of_lookup_none (k : String) :
    ∀ (l : List (String × Value)), List.lookup k l = none →
      ∀ pd ∈ l, pd.1 ≠ k
  | [], _, pd, hm => absurd hm (List.not_mem_nil pd)
  | (a, w) :: t, h, pd, hm => by
    rw [List.lookup_cons] at h
    cases hb : k == a
    · rw [hb] at h
      rcases List.mem_cons.mp hm with rfl | hm2
      · intro he
        subst he
        simp at hb
      · exact keys_ne_of_lookup_none k t h pd hm2
    · rw [hb] at h
      simp at h

/-- The point-survey bootstrap only writes `траектория` and
trajectory-dependent parameters; every other key keeps its binding. -/
theorem pointSurvey_preserves (rs : ParametersValidator.RuleSet)
    (resolver : ParametersValidator.Resolver) (k : String)
    (hk : k ≠ "траектория")
    (hdep : ∀ deps,
      List.lookup "обследование_точки" rs.trajectoryDependent = some deps →
      ∀ d ∈ deps, ¬ k ∈ d.2)
    (ps ps1 : Params)
    (h : ParametersValidator.processPointSurvey rs resolver ps = some ps1) :
    List.lookup k ps1 = List.lookup k ps := by
  unfold ParametersValidator.processPointSurvey at h
  have hT : List.lookup k
      (if hasKey ps "траектория" then ps
       else setKey ps "траектория"
         (resolver "обследование_точки" "траектория")) =
      List.lookup k ps := by
    split
    · rfl
    · exact lookup_setKey_other ps "траектория" k _ hk
  cases hdeps : List.lookup "обследование_точки" rs.trajectoryDependent with
  | none =>
    simp only [hdeps, Option.some.injEq] at h
    rw [← h]
    exact hT
  | some deps =>
    simp only [hdeps] at h
    cases htr : List.lookup "траектория"
        (if hasKey ps "траектория" then ps
         else setKey ps "траектория"
           (resolver "обследование_точки" "траектория")) with
    | none =>
      simp only [htr] at h
      exact Option.noConfusion h
    | some v =>
      simp only [htr] at h
      cases v with
      | str t =>
        simp only [Option.some.injEq] at h
        rw [← h]
        rw [lookup_foldl_deps_not_mem resolver (pyLower t) k deps _
          (hdep deps hdeps)]
        exact hT
      | null => simp at h
      | int n => simp at h
      | num q => simp at h
      | coords m => simp at h

/-- After height/depth normalization the map never contains `глубина`. -/
theorem heightDepth_no_depth (rs : ParametersValidator.RuleSet)
    (resolver : ParametersValidator.Resolver) (cmd : String)
    (ps1 ps2 : Params)
    (h : ParametersValidator.processHeightDepth rs resolver cmd ps1 =
      some ps2) :
    List.lookup "глубина" ps2 = none := by
  unfold ParametersValidator.processHeightDepth at h
  cases hH : hasKey ps1 "высота" <;> cases hD : hasKey ps1 "глубина"
  · -- neither present: last branch, map unchanged
    simp only [hH, hD, Bool.and_self, Bool.not_false, if_false, if_true,
      Bool.false_eq_true] at h
    have hnone : List.lookup "глубина" ps1 = none := by
      cases hx : List.lookup "глубина" ps1
      · rfl
      · unfold hasKey at hD
        rw [hx] at hD
        simp at hD
    cases hr : List.lookup cmd rs.required with
    | none =>
      simp only [hr, Option.some.injEq] at h
      rw [← h]
      exact hnone
    | some req =>
      simp only [hr] at h
      split at h
      · simp only [Option.some.injEq] at h
        rw [← h]
        rw [lookup_setKey_other ps1 "высота" "глубина" _ (by decide)]
        exact hnone
      · simp only [Option.some.injEq] at h
        rw [← h]
        exact hnone
  · -- only depth present
    simp only [hH, hD, Bool.false_and, if_false, if_true,
      Bool.false_eq_true] at h
    cases hx : List.lookup "глубина" ps1 with
    | none =>
      simp only [hx] at h
      exact Option.noConfusion h
    | some v =>
      simp only [hx] at h
      cases hq : pyFloatV v with
      | none =>
        simp only [hq] at h
        exact Option.noConfusion h
      | some q =>
        simp only [hq, Option.some.injEq] at h
        rw [← h]
        exact lookup_delKey_self "глубина" _
  · -- only height present: map unchanged
    simp only [hH, hD, Bool.and_false, Bool.not_true, if_false,
      Bool.false_eq_true, Option.some.injEq] at h
    rw [← h]
    cases hx : List.lookup "глубина" ps1
    · rfl
    · unfold hasKey at hD
      rw [hx] at hD
      simp at hD
  · -- both present: depth dropped
    simp only [hH, hD, Bool.and_self, if_true, Option.some.injEq] at h
    rw [← h]
    exact lookup_delKey_self "глубина" ps1

/-- When both height and depth are present, normalization keeps the height
binding unchanged (and drops depth). -/
theorem heightDepth_both (rs : ParametersValidator.RuleSet)
    (resolver : ParametersValidator.Resolver) (cmd : String)
    (ps1 ps2 : Params)
    (hH : hasKey ps1 "высота" = true) (hD : hasKey ps1 "глубина" = true)
    (h : ParametersValidator.processHeightDepth rs resolver cmd ps1 =
      some ps2) :
    List.lookup "высота" ps2 = List.lookup "высота" ps1 := by
  unfold ParametersValidator.processHeightDepth at h
  simp only [hH, hD, Bool.and_self, if_true, Option.some.injEq] at h
  rw [← h]
  exact lookup_delKey_other "глубина" "высота" (by decide) ps1

/-- When only depth is present with float value `q`, normalization binds
`высота` to `-|q|`. -/
theorem heightDepth_only_depth (rs : ParametersValidator.RuleSet)
    (resolver : ParametersValidator.Resolver) (cmd : String)
    (ps1 ps2 : Params) (v : Value) (q : ℚ)
    (hH : hasKey ps1 "высота" = false)
    (hv : List.lookup "глубина" ps1 = some v)
    (hq : pyFloatV v = some q)
    (h : ParametersValidator.processHeightDepth rs resolver cmd ps1 =
      some ps2) :
    List.lookup "высота" ps2 = some (.num (-|q|)) := by
  have hD : hasKey ps1 "глубина" = true := by
    unfold hasKey
    rw [hv]
    rfl
  unfold ParametersValidator.processHeightDepth at h
  simp only [hH, hD, Bool.false_and, Bool.false_eq_true, if_false,
    if_true] at h
  simp only [hv] at h
  simp only [hq, Option.some.injEq] at h
  rw [← h]
  rw [lookup_delKey_other "глубина" "высота" (by decide)]
  exact lookup_setKey_self ps1 "высота" (.num (-|q|))

/-- The required-parameter check never touches a key outside the required
list. -/
theorem checkRequired_other (rs : ParametersValidator.RuleSet)
    (resolver : ParametersValidator.Resolver) (cmd : String) (k : String)
    (ps : Params)
    (hreq : ∀ req, List.lookup cmd rs.required = some req → ¬ k ∈ req) :
    List.lookup k (ParametersValidator.checkRequired rs resolver cmd ps) =
    List.lookup k ps := by
  unfold ParametersValidator.checkRequired
  cases hr : List.lookup cmd rs.required with
  | none => rfl
  | some req =>
    exact lookup_foldl_add_not_mem cmd resolver k req ps (hreq req hr)

/-- The required-parameter check preserves present bindings. -/
theorem checkRequired_present (rs : ParametersValidator.RuleSet)
    (resolver : ParametersValidator.Resolver) (cmd : String) (k : String)
    (v : Value) (ps : Params) (h : List.lookup k ps = some v) :
    List.lookup k (ParametersValidator.checkRequired rs resolver cmd ps) =
    some v := by
  unfold ParametersValidator.checkRequired
  cases List.lookup cmd rs.required with
  | none => exact h
  | some req => exact lookup_foldl_add_present cmd resolver k v req ps h

/-- The optional-defaults pass never touches a key with no configured
default. -/
theorem applyOptional_other (rs : ParametersValidator.RuleSet)
    (cmd : String) (k : String) (ps : Params)
    (hopt : ∀ opt, List.lookup cmd rs.optional = some opt →
      List.lookup k opt = none) :
    List.lookup k (ParametersValidator.applyOptional rs cmd ps) =
    List.lookup k ps := by
  unfold ParametersValidator.applyOptional
  cases ho : List.lookup cmd rs.optional with
  | none => rfl
  | some opt =>
    exact lookup_foldl_opt_not_mem k opt ps
      (keys_ne_of_lookup_none k opt (hopt opt ho))

/-- The optional-defaults pass preserves present bindings. -/
theorem applyOptional_present (rs : ParametersValidator.RuleSet)
    (cmd : String) (k : String) (v : Value) (ps : Params)
    (h : List.lookup k ps = some v) :
    List.lookup k (ParametersValidator.applyOptional rs cmd ps) = some v := by
  unfold ParametersValidator.applyOptional
  cases List.lookup cmd rs.optional with
  | none => exact h
  | some opt => exact lookup_foldl_opt_present k v opt ps h

/-- Successful type coercion maps each binding through its declared
conversion and keeps the key set. -/
theorem lookup_convertParamTypes (k : String) :
    ∀ (ps ps2 : Params),
      ParametersValidator.convertParamTypes ps = .ok ps2 →
      List.lookup k ps2 = (List.lookup k ps).bind (fun v =>
        match List.lookup k ParametersValidator.paramTypes with
        | none => some v
        | some pt => ParametersValidator.convertValue pt v)
  | [], ps2, h => by
    simp only [ParametersValidator.convertParamTypes] at h
    cases h
    simp
  | (a, w) :: rest, ps2, h => by
    simp only [ParametersValidator.convertParamTypes] at h
    cases hpt : List.lookup a ParametersValidator.paramTypes with
    | none =>
      simp only [hpt] at h
      cases hr : ParametersValidator.convertParamTypes rest with
      | error e =>
        simp only [hr, Except.map] at h
        exact Except.noConfusion h
      | ok rest2 =>
        simp only [hr, Except.map, Except.ok.injEq] at h
        rw [← h, List.lookup_cons, List.lookup_cons]
        cases hb : k == a
        · exact lookup_convertParamTypes k rest rest2 hr
        · have hka : k = a := beq_iff_eq.mp hb
          subst hka
          rw [hpt]
          rfl
    | some pt =>
      simp only [hpt] at h
      cases hcv : ParametersValidator.convertValue pt w with
      | none =>
        simp only [hcv] at h
        exact Except.noConfusion h
      | some w2 =>
        simp only [hcv] at h
        cases hr : ParametersValidator.convertParamTypes rest with
        | error e =>
          simp only [hr, Except.map] at h
          exact Except.noConfusion h
        | ok rest2 =>
          simp only [hr, Except.map, Except.ok.injEq] at h
          rw [← h, List.lookup_cons, List.lookup_cons]
          cases hb : k == a
          · exact lookup_convertParamTypes k rest rest2 hr
          · have hka : k = a := beq_iff_eq.mp hb
            subst hka
            simp only [hpt]
            simp [hcv]

/-- C4 (amended).  For every command accepted by the Parameter Validator,
PROVIDED the rule set does not itself reintroduce depth — `глубина` is not
among the command's Required names nor its Optional defaults — the output
parameter map never contains `глубина` (hence never both height and depth);
and provided the point-survey dependent-parameter lists do not mention
height or depth, if both were present in the input the height value is kept
unchanged, and if only depth was present the output height is `-|depth|`.
(Without the rule-set provisos the claim is false; see the
counterexample.) -/
theorem c4_height_depth_invariant (rs : ParametersValidator.RuleSet)
    (resolver : ParametersValidator.Resolver) (name : String)
    (ps out : Params)
    (hok : ParametersValidator.validateCommand rs resolver (name, ps) =
      .ok (name, out))
    (hreq : ∀ req, List.lookup name rs.required = some req →
      ¬ "глубина" ∈ req)
    (hopt : ∀ opt, List.lookup name rs.optional = some opt →
      List.lookup "глубина" opt = none)
    (hdep : ∀ deps,
      List.lookup "обследование_точки" rs.trajectoryDependent = some deps →
      ∀ d ∈ deps, ¬ "высота" ∈ d.2 ∧ ¬ "глубина" ∈ d.2) :
    List.lookup "глубина" out = none ∧
    (∀ q, hasKey ps "высота" = true → hasKey ps "глубина" = true →
      List.lookup "высота" ps = some (.num q) →
      List.lookup "высота" out = some (.num q)) ∧
    (∀ v q, hasKey ps "высота" = false →
      List.lookup "глубина" ps = some v → pyFloatV v = some q →
      List.lookup "высота" out = some (.num (-|q|))) := by
  unfold ParametersValidator.validateCommand at hok
  dsimp only at hok
  cases hs1 : (if name = "обследование_точки" then
      ParametersValidator.processPointSurvey rs resolver ps
    else some ps) with
  | none =>
    simp only [hs1] at hok
    exact Except.noConfusion hok
  | some ps1 =>
    simp only [hs1] at hok
    cases hs2 : ParametersValidator.processHeightDepth rs resolver name ps1
      with
    | none =>
      simp only [hs2] at hok
      exact Except.noConfusion hok
    | some ps2 =>
      simp only [hs2] at hok
      cases hs5 : ParametersValidator.convertParamTypes
          (ParametersValidator.applyOptional rs name
            (ParametersValidator.checkRequired rs resolver name ps2)) with
      | error e =>
        simp only [hs5] at hok
        exact Except.noConfusion hok
      | ok ps5 =>
        simp only [hs5, Except.ok.injEq, Prod.mk.injEq] at hok
        obtain ⟨-, hout⟩ := hok
        subst hout
        have hps1H : List.lookup "высота" ps1 = List.lookup "высота" ps := by
          by_cases hn : name = "обследование_точки"
          · rw [if_pos hn] at hs1
            exact pointSurvey_preserves rs resolver "высота" (by decide)
              (fun deps hd d hm => (hdep deps hd d hm).1) ps ps1 hs1
          · rw [if_neg hn] at hs1
            simp only [Option.some.injEq] at hs1
            rw [hs1]
        have hps1D : List.lookup "глубина" ps1 = List.lookup "глубина" ps := by
          by_cases hn : name = "обследование_точки"
          · rw [if_pos hn] at hs1
            exact pointSurvey_preserves rs resolver "глубина" (by decide)
              (fun deps hd d hm => (hdep deps hd d hm).2) ps ps1 hs1
          · rw [if_neg hn] at hs1
            simp only [Option.some.injEq] at hs1
            rw [hs1]
        have hptH : List.lookup "высота" ParametersValidator.paramTypes =
            some .pfloat := by decide
        refine ⟨?_, ?_, ?_⟩
        · have h2 := heightDepth_no_depth rs resolver name ps1 ps2 hs2
          have h3 := checkRequired_other rs resolver name "глубина" ps2 hreq
          have h4 := applyOptional_other rs name "глубина"
            (ParametersValidator.checkRequired rs resolver name ps2) hopt
          have h5 := lookup_convertParamTypes "глубина" _ _ hs5
          rw [h4, h3, h2] at h5
          simpa using h5
        · intro q hH hD hv
          have hv1 : List.lookup "высота" ps1 = some (.num q) := by
            rw [hps1H]
            exact hv
          have hH1 : hasKey ps1 "высота" = true := by
            unfold hasKey
            rw [hv1]
            rfl
          have hD1 : hasKey ps1 "глубина" = true := by
            unfold hasKey
            rw [hps1D]
            unfold hasKey at hD
            exact hD
          have h2v := heightDepth_both rs resolver name ps1 ps2 hH1 hD1 hs2
          have h3v := checkRequired_present rs resolver name "высота"
            (.num q) ps2 (by rw [h2v]; exact hv1)
          have h4v := applyOptional_present rs name "высота" (.num q) _ h3v
          have h5v := lookup_convertParamTypes "высота" _ _ hs5
          rw [h4v, hptH] at h5v
          simpa [ParametersValidator.convertValue] using h5v
        · intro v q hH hv hq
          have hv1 : List.lookup "глубина" ps1 = some v := by
            rw [hps1D]
            exact hv
          have hH1 : hasKey ps1 "высота" = false := by
            unfold hasKey
            rw [hps1H]
            unfold hasKey at hH
            exact hH
          have h2v := heightDepth_only_depth rs resolver name ps1 ps2 v q
            hH1 hv1 hq hs2
          have h3v := checkRequired_present rs resolver name "высота"
            (.num (-|q|)) ps2 h2v
          have h4v := applyOptional_present rs name "высота" (.num (-|q|))
            _ h3v
          have h5v := lookup_convertParamTypes "высота" _ _ hs5
          rw [h4v, hptH] at h5v
          simpa [ParametersValidator.convertValue] using h5v

/-- C4 counterexample.  The claim says the validated output never contains
depth; with a rule set whose Optional defaults for the command include
`глубина`, the defaults pass re-adds depth after normalization, so the
accepted output contains both `высота` and `глубина`. -/
theorem c4_counterexample :
    ∃ out, ParametersValidator.validateCommand
        ⟨[], [("c", [("глубина", Value.num 5)])], []⟩ (fun _ _ => .null)
        ("c", [("высота", .num 3)]) = .ok ("c", out) ∧
      hasKey out "глубина" = true ∧ hasKey out "высота" = true := by
  refine ⟨[("высота", .num 3), ("глубина", .num 5)], ?_, by decide, by decide⟩
  simp [ParametersValidator.validateCommand,
    ParametersValidator.processHeightDepth, ParametersValidator.checkRequired,
    ParametersValidator.applyOptional, ParametersValidator.convertParamTypes,
    ParametersValidator.convertValue, ParametersValidator.paramTypes,
    hasKey, setKey, List.lookup, Except.map]

/-- C4 witness: with an empty rule set, a command carrying only
`глубина = 4` validates to a map with `высота = -4` and no `глубина`;
the amended invariant instantiates to it. -/
theorem c4_height_depth_invariant_witness :
    List.lookup "глубина" ([("высота", Value.num (-|4|))] : Params) = none ∧
    (∀ q, hasKey ([("глубина", Value.num 4)] : Params) "высота" = true →
      hasKey ([("глубина", Value.num 4)] : Params) "глубина" = true →
      List.lookup "высота" ([("глубина", Value.num 4)] : Params) =
        some (.num q) →
      List.lookup "высота" ([("высота", Value.num (-|4|))] : Params) =
        some (.num q)) ∧
    (∀ v q, hasKey ([("глубина", Value.num 4)] : Params) "высота" = false →
      List.lookup "глубина" ([("глубина", Value.num 4)] : Params) = some v →
      pyFloatV v = some q →
      List.lookup "высота" ([("высота", Value.num (-|4|))] : Params) =
        some (.num (-|q|))) :=
  c4_height_depth_invariant ⟨[], [], []⟩ (fun _ _ => .null) "x"
    [("глубина", .num 4)] [("высота", .num (-|4|))]
    (by
      simp [ParametersValidator.validateCommand,
        ParametersValidator.processHeightDepth,
        ParametersValidator.checkRequired, ParametersValidator.applyOptional,
        ParametersValidator.convertParamTypes,
        ParametersValidator.convertValue, ParametersValidator.paramTypes,
        hasKey, setKey, delKey, pyFloatV, List.lookup, Except.map])
    (by simp) (by simp) (by simp)

/-- The suffix after the first occurrence of `sep` (Python
`s.split(sep)[1:]` viewpoint); `none` when `sep` does not occur. -/
def afterSub (sep : List Char) : List Char → Option (List Char)
  | [] => if sep.isEmpty then some [] else none
  | c :: rest =>
    if headMatches sep (c :: rest) then some ((c :: rest).drop sep.length)
    else afterSub sep rest

/-- The segment up to the next occurrence of `sep` (whole list when `sep`
does not occur again). -/
def upToSub (sep : List Char) : List Char → List Char
  | [] => []
  | c :: rest =>
    if headMatches sep (c :: rest) then [] else c :: upToSub sep rest

/-- Python `s.split(sep)[1]`: the text between the first and second
occurrence of `sep`; `none` models the `IndexError` when `sep` does not
occur. -/
def splitSecond (s sep : String) : Option String :=
  (afterSub sep.data s.data).map (fun suffix => String.mk (upToSub sep.data suffix))

/-- The dispatch key of `Figure._get_trajectory_type`: the lowercased text
before the first comma of the `траектория` parameter (absent parameter
defaults to the empty string, a non-string parameter raises —
`.split` on a non-`str`). -/
def trajFirstLower (params : Params) : Option String :=
  match (List.lookup "траектория" params).getD (.str "") with
  | .str s =>
    some (pyLower (String.mk (s.data.takeWhile (fun c => !(c == ',')))))
  | _ => none

/-- `Figure._get_trajectory_type` (`modules/trajectories.py` lines
487-500): keyword-substring dispatch; note that `веер` also selects the
rosette generator, and that the centered meander requires the point-survey
command kind. -/
def getTrajectoryType (key : String) (command : List (String × Params)) :
    Except Unit (Option String) :=
  match List.lookup key command with
  | none => .ok none
  | some params =>
    match trajFirstLower params with
    | none => .error ()
    | some traj =>
      .ok (
        if containsSub traj.data "меандр".data && (key == "обследование_точки")
        then some "центральный_меандр"
        else if containsSub traj.data "меандр".data then some "меандр"
        else if containsSub traj.data "спираль".data then some "спираль"
        else if containsSub traj.data "звезда".data then some "звезда"
        else if containsSub traj.data "розетка".data ||
            containsSub traj.data "веер".data then some "розетка"
        else none)

/-- Arithmetic use of a parameter value: numbers pass through, anything
else raises `TypeError` (`none`). -/
def pyArithQ : Value → Option ℚ
  | .int n => some (n : ℚ)
  | .num q => some q
  | _ => none

/-- `Figure.coordinates` (lines 440-485): dispatch on the trajectory type
and call the matching generator with the command's parameters; an
unmatched (or absent) type yields the empty waypoint list.  `fuel` bounds
the spiral loop (see `SpiralGenerator.generateSpiral`). -/
def coordinates (ctx : MathCtx) (fuel : ℕ) (key : String)
    (command : List (String × Params)) (lon lat : ℚ) : Option (List Pt) :=
  match getTrajectoryType key command with
  | .error _ => none
  | .ok none => some []
  | .ok (some ttype) =>
    match List.lookup key command with
    | none => none
    | some params =>
      if ttype = "меандр" ∨ ttype = "центральный_меандр" then do
        let dlina ← (List.lookup "длина" params).bind pyArithQ
        let shirina ← (List.lookup "ширина" params).bind pyArithQ
        let mezhgals ← (List.lookup "межгалс" params).bind pyArithQ
        let tr ← (match List.lookup "траектория" params with
          | some (.str s) => some s
          | _ => none)
        let dir ← splitSecond tr ", "
        let ang ← pyArithQ ((List.lookup "угол" params).getD (.int 0))
        if ttype = "меандр" then
          some (MeanderGenerator.generateMeander ctx lon lat dlina shirina
            mezhgals dir ang)
        else
          some (CenteredMeanderGenerator.generateCenteredMeander ctx lon lat
            dlina shirina mezhgals dir ang)
      else if ttype = "спираль" then do
        let rad ← (List.lookup "радиус" params).bind pyFloatV
        let mezhgals ← (List.lookup "межгалс" params).bind pyFloatV
        let dirStr ← (match
            (List.lookup "направление" params).getD (.str "по часовой") with
          | .str s => some s
          | _ => none)
        some (SpiralGenerator.generateSpiral ctx fuel lon lat rad mezhgals
          (pyLower dirStr = "против часовой") 1)
      else if ttype = "звезда" then do
        let rad ← pyArithQ ((List.lookup "радиус" params).getD (.int 10))
        let ang ← pyArithQ ((List.lookup "угол" params).getD (.int 0))
        let nl ← pyIntV ((List.lookup "линии" params).getD (.int 5))
        let ll ← pyArithQ ((List.lookup "длина_луча" params).getD (.int 20))
        StarGenerator.generateStar ctx lon lat rad nl ang ll
      else do
        let rad ← pyArithQ ((List.lookup "радиус" params).getD (.int 10))
        let ang ← pyArithQ ((List.lookup "угол" params).getD (.int 0))
        let np ← (match (List.lookup "проходы" params).getD (.int 6) with
          | .int n => some n
          | _ => none)
        RosetteGenerator.generateRosette ctx lon lat rad np ang

/-- The rosette generator with a nonzero pass count succeeds and emits two
waypoints per pass. -/
theorem rosette_some_length (ctx : MathCtx) (clon clat r a : ℚ) (n : ℤ)
    (hn : n ≠ 0) :
    ∃ l, RosetteGenerator.generateRosette ctx clon clat r n a = some l ∧
      l.length = 2 * n.toNat := by
  refine ⟨((List.range n.toNat).flatMap (fun i =>
      [rosetteRay ctx clon clat r n a i, (clon, clat)])).map
      (fun p => (round6 p.1, round6 p.2)), ?_, ?_⟩
  · simp only [RosetteGenerator.generateRosette, hn, if_false]
    rfl
  · rw [List.length_map, length_flatMap_two (List.range n.toNat)
      (fun i => [rosetteRay ctx clon clat r n a i, (clon, clat)])
      (fun i => rfl)]
    simp

/-- C5 (amended).  Trajectory dispatch lowercases the text before the first
comma of the survey-pattern parameter and matches it by substring against
the keyword set {меандр, спираль, звезда, розетка, веер} — `веер` is a
sixth alias selecting the rosette generator, beyond the five pattern
keywords of the claim.  The centered meander is selected iff the owning
command is the point-survey kind and the text contains `меандр`; and for
text matching none of these keywords the generated waypoint sequence is
empty with no error. -/
theorem c5_trajectory_dispatch :
    (∀ (ctx : MathCtx) (fuel : ℕ) (key : String)
      (cmd : List (String × Params)) (lon lat : ℚ),
      getTrajectoryType key cmd = .ok none →
      coordinates ctx fuel key cmd lon lat = some []) ∧
    (∀ (key : String) (cmd : List (String × Params)) (params : Params)
      (t : String), List.lookup key cmd = some params →
      trajFirstLower params = some t →
      (getTrajectoryType key cmd = .ok (some "центральный_меандр") ↔
        (containsSub t.data "меандр".data = true ∧
          key = "обследование_точки"))) ∧
    (∀ (key : String) (cmd : List (String × Params)) (params : Params)
      (t : String), List.lookup key cmd = some params →
      trajFirstLower params = some t →
      containsSub t.data "меандр".data = false →
      containsSub t.data "спираль".data = false →
      containsSub t.data "звезда".data = false →
      containsSub t.data "веер".data = true →
      getTrajectoryType key cmd = .ok (some "розетка")) := by
  refine ⟨?_, ?_, ?_⟩
  · intro ctx fuel key cmd lon lat h
    simp only [coordinates, h]
  · intro key cmd params t hlk ht
    simp only [getTrajectoryType, hlk, ht]
    cases hc1 : containsSub t.data "меандр".data <;>
      cases hc2 : containsSub t.data "спираль".data <;>
      cases hc3 : containsSub t.data "звезда".data <;>
      cases hc4 : containsSub t.data "розетка".data <;>
      cases hc5 : containsSub t.data "веер".data <;>
      by_cases hk : key = "обследование_точки" <;>
      simp [hc1, hc2, hc3, hc4, hc5, hk]
  · intro key cmd params t hlk ht hm hs hz hv
    simp only [getTrajectoryType, hlk, ht]
    simp [hm, hs, hz, hv]

/-- C5 witness: pattern text `круг` matches no keyword and yields the
empty waypoint sequence without error. -/
theorem c5_trajectory_dispatch_witness :
    coordinates ctx0 0 "k" [("k", [("траектория", Value.str "круг")])] 0 0 =
      some [] :=
  c5_trajectory_dispatch.1 ctx0 0 "k"
    [("k", [("траектория", Value.str "круг")])] 0 0 rfl

/-- C5 counterexample.  The pattern text `веер` contains none of the five
claimed keywords, yet dispatch selects the rosette generator and the
generated sequence is nonempty (12 waypoints with the default 6 passes),
contradicting the claim that unmatched text yields an empty sequence. -/
theorem c5_counterexample :
    ∃ l, coordinates ctx0 10 "обследование_фигуры"
        [("обследование_фигуры", [("траектория", Value.str "веер")])] 0 0 =
        some l ∧
      l.length = 12 ∧ l ≠ [] := by
  have hty : getTrajectoryType "обследование_фигуры"
      [("обследование_фигуры", [("траектория", Value.str "веер")])] =
      .ok (some "розетка") := rfl
  have hco : coordinates ctx0 10 "обследование_фигуры"
      [("обследование_фигуры", [("траектория", Value.str "веер")])] 0 0 =
      RosetteGenerator.generateRosette ctx0 0 0 10 6 0 := by
    simp only [coordinates, hty]
    simp [List.lookup, pyArithQ]
  obtain ⟨l, hl, hlen⟩ := rosette_some_length ctx0 0 0 10 0 6 (by norm_num)
  refine ⟨l, ?_, ?_, ?_⟩
  · rw [hco]
    exact hl
  · rw [hlen]
    rfl
  · intro he
    rw [he] at hlen
    simp at hlen
